import Mathlib

/-!
Verification development for the `aictx` document-convention tool: document
model (frontmatter parsing), indexer, validator, manifest/checksum builder and
export adapters, shallowly embedded from `src/aictx/*.py`.

Modelling conventions:
* Python strings are `String` at the interfaces and `List Char` (sequences of
  Unicode code points) internally; Python byte strings are `List Nat`, one
  entry per byte.
* The YAML library (`yaml.safe_load`) is an external collaborator and is kept
  as an explicit parameter of everything that parses frontmatter; concrete
  instances use the minimal mapping parser `yamlSimple` defined below.
* The filesystem seen by the indexer is the `Root` record (rule files and task
  directories with their files); reading, discovery and sorting are total
  functions over it.
-/

set_option maxRecDepth 40000

namespace Aictx

/-- Characters stripped by Python's `str.strip()` with no argument: the
whitespace set of `str.isspace`. -/
def isPySpace (c : Char) : Bool :=
  c = ' ' || c = '\t' || c = '\n' || c = '\r' ||
  c.toNat = 11 || c.toNat = 12 ||
  (28 ≤ c.toNat && c.toNat ≤ 31) ||
  c.toNat = 133 || c.toNat = 160 || c.toNat = 0x1680 ||
  (0x2000 ≤ c.toNat && c.toNat ≤ 0x200a) ||
  c.toNat = 0x2028 || c.toNat = 0x2029 || c.toNat = 0x202f ||
  c.toNat = 0x205f || c.toNat = 0x3000

/-- Drop leading characters satisfying `p` (Python `lstrip`). -/
def dropLeadWhile (p : Char → Bool) : List Char → List Char
  | [] => []
  | c :: rest => if p c then dropLeadWhile p rest else c :: rest

/-- Drop trailing characters satisfying `p` (Python `rstrip`). -/
def dropTrailWhile (p : Char → Bool) : List Char → List Char
  | [] => []
  | c :: rest =>
    let r := dropTrailWhile p rest
    if r.isEmpty then (if p c then [] else [c]) else c :: r

/-- Python `str.strip()` over code points. -/
def pyStripChars (cs : List Char) : List Char :=
  dropLeadWhile isPySpace (dropTrailWhile isPySpace cs)

/-- Python `str.strip()`. -/
def pyStrip (s : String) : String := ⟨pyStripChars s.data⟩

/-- Python `s.startswith(pat)` over code points; first argument is `s`. -/
def startsWithL : List Char → List Char → Bool
  | _, [] => true
  | [], _ :: _ => false
  | c :: s, p :: ps => c = p && startsWithL s ps

/-- Python `s.endswith(pat)` over code points; first argument is `s`. -/
def endsWithL (s pat : List Char) : Bool := startsWithL s.reverse pat.reverse

/-- Index of the first occurrence of `pat` in a list of code points, if any
(Python `str.find`, with `none` for `-1`). -/
def findSub (pat : List Char) : List Char → Option Nat
  | [] => if startsWithL [] pat then some 0 else none
  | c :: rest =>
    if startsWithL (c :: rest) pat then some 0
    else (findSub pat rest).map (· + 1)

/-- Python `s.split(pat, 1)[-1]`: everything after the first occurrence of
`pat`, or all of `s` when `pat` does not occur. -/
def afterFirstSub (pat s : List Char) : List Char :=
  match findSub pat s with
  | some i => s.drop (i + pat.length)
  | none => s

/-- Python `s.replace(pat, "", 1)`: remove the first occurrence of `pat`. -/
def removeFirstSub (pat s : List Char) : List Char :=
  match findSub pat s with
  | some i => s.take i ++ s.drop (i + pat.length)
  | none => s

/-- Python `s.replace("\r\n", "\n")`: left-to-right, non-overlapping. -/
def replaceCRLF : List Char → List Char
  | [] => []
  | [c] => [c]
  | c :: d :: rest =>
    if c = '\r' && d = '\n' then '\n' :: replaceCRLF rest
    else c :: replaceCRLF (d :: rest)

/-- Python `s.replace("\r", "\n")`. -/
def replaceCR (cs : List Char) : List Char :=
  cs.map (fun c => if c = '\r' then '\n' else c)

/-- Python `<` on strings: lexicographic comparison by code point. -/
def pyStrLt : List Char → List Char → Bool
  | [], [] => false
  | [], _ :: _ => true
  | _ :: _, [] => false
  | a :: xs, b :: ys => if a = b then pyStrLt xs ys else decide (a.toNat < b.toNat)

/-- Insert into a list sorted by `key` in Python string order. -/
def insSortedBy (key : α → String) (x : α) : List α → List α
  | [] => [x]
  | y :: ys =>
    if pyStrLt (key x).data (key y).data || key x = key y then x :: y :: ys
    else y :: insSortedBy key x ys

/-- Stable ascending sort by `key` in Python string order (Python `sorted`). -/
def sortByKey (key : α → String) (l : List α) : List α :=
  l.foldr (insSortedBy key) []

/-- UTF-8 encoding of one code point (Python `str.encode("utf-8")`). -/
def utf8Char (c : Char) : List Nat :=
  let n := c.toNat
  if n < 0x80 then [n]
  else if n < 0x800 then [0xc0 + n / 64, 0x80 + n % 64]
  else if n < 0x10000 then [0xe0 + n / 4096, 0x80 + n / 64 % 64, 0x80 + n % 64]
  else [0xf0 + n / 262144, 0x80 + n / 4096 % 64, 0x80 + n / 64 % 64, 0x80 + n % 64]

/-- UTF-8 encoding of a code-point sequence as a byte list. -/
def utf8Encode (cs : List Char) : List Nat := cs.flatMap utf8Char

/-- Truncation to 32 bits. -/
def w32 (n : Nat) : Nat := n % 4294967296

/-- Rotate a 32-bit word right by `k`. -/
def rotr32 (k n : Nat) : Nat := w32 ((n >>> k) ||| (n <<< (32 - k)))

/-- SHA-256 `Ch` function. -/
def shaCh (x y z : Nat) : Nat := (x &&& y) ^^^ ((x ^^^ 0xffffffff) &&& z)

/-- SHA-256 `Maj` function. -/
def shaMaj (x y z : Nat) : Nat := (x &&& y) ^^^ (x &&& z) ^^^ (y &&& z)

/-- SHA-256 big sigma 0. -/
def bigSigma0 (x : Nat) : Nat := rotr32 2 x ^^^ rotr32 13 x ^^^ rotr32 22 x

/-- SHA-256 big sigma 1. -/
def bigSigma1 (x : Nat) : Nat := rotr32 6 x ^^^ rotr32 11 x ^^^ rotr32 25 x

/-- SHA-256 small sigma 0. -/
def smallSigma0 (x : Nat) : Nat := rotr32 7 x ^^^ rotr32 18 x ^^^ (x >>> 3)

/-- SHA-256 small sigma 1. -/
def smallSigma1 (x : Nat) : Nat := rotr32 17 x ^^^ rotr32 19 x ^^^ (x >>> 10)

/-- The 64 SHA-256 round constants (the standard table, in decimal). -/
def sha256K : List Nat :=
  [1116352408, 1899447441, 3049323471, 3921009573, 961987163,
   1508970993, 2453635748, 2870763221, 3624381080, 310598401,
   607225278, 1426881987, 1925078388, 2162078206, 2614888103,
   3248222580, 3835390401, 4022224774, 264347078, 604807628,
   770255983, 1249150122, 1555081692, 1996064986, 2554220882,
   2821834349, 2952996808, 3210313671, 3336571891, 3584528711,
   113926993, 338241895, 666307205, 773529912, 1294757372,
   1396182291, 1695183700, 1986661051, 2177026350, 2456956037,
   2730485921, 2820302411, 3259730800, 3345764771, 3516065817,
   3600352804, 4094571909, 275423344, 430227734, 506948616,
   659060556, 883997877, 958139571, 1322822218, 1537002063,
   1747873779, 1955562222, 2024104815, 2227730452, 2361852424,
   2428436474, 2756734187, 3204031479, 3329325298]

/-- The SHA-256 initial hash value (in decimal). -/
def sha256H0 : List Nat :=
  [1779033703, 3144134277, 1013904242, 2773480762,
   1359893119, 2600822924, 528734635, 1541459225]

/-- SHA-256 message padding: append `0x80`, zeros, and the 64-bit big-endian
bit length, reaching a multiple of 64 bytes. -/
def shaPad (msg : List Nat) : List Nat :=
  let lng := msg.length
  let padLen := (119 - lng % 64) % 64
  msg ++ (0x80 :: List.replicate padLen 0) ++
    ([56, 48, 40, 32, 24, 16, 8, 0].map (fun k => (8 * lng) >>> k % 256))

/-- Split a byte list into chunks of 64 (the input length is a multiple
of 64 after padding). -/
def chunksAux : List Nat → List Nat → List (List Nat)
  | buf, [] => if buf.isEmpty then [] else [buf]
  | buf, b :: rest =>
    if buf.length = 63 then (buf ++ [b]) :: chunksAux [] rest
    else chunksAux (buf ++ [b]) rest

/-- Combine bytes into big-endian 32-bit words. -/
def bytesToWords : List Nat → List Nat
  | b0 :: b1 :: b2 :: b3 :: rest =>
    (b0 * 16777216 + b1 * 65536 + b2 * 256 + b3) :: bytesToWords rest
  | _ => []

/-- Extend the 16-word block to the 64-word message schedule (`n` more). -/
def extendSched : Nat → List Nat → List Nat
  | 0, ws => ws
  | n + 1, ws =>
    let t := ws.length
    let nw := w32 (smallSigma1 (ws.getD (t - 2) 0) + ws.getD (t - 7) 0 +
      smallSigma0 (ws.getD (t - 15) 0) + ws.getD (t - 16) 0)
    extendSched n (ws ++ [nw])

/-- Working state of the SHA-256 compression loop. -/
structure ShaState where
  a : Nat
  b : Nat
  c : Nat
  d : Nat
  e : Nat
  f : Nat
  g : Nat
  h : Nat
deriving DecidableEq

/-- One SHA-256 compression round on `(k, w)`. -/
def shaRound (st : ShaState) (kw : Nat × Nat) : ShaState :=
  let t1 := w32 (st.h + bigSigma1 st.e + shaCh st.e st.f st.g + kw.1 + kw.2)
  let t2 := w32 (bigSigma0 st.a + shaMaj st.a st.b st.c)
  ⟨w32 (t1 + t2), st.a, st.b, st.c, w32 (st.d + t1), st.e, st.f, st.g⟩

/-- Process one 64-byte block, updating the eight hash words. -/
def shaBlock (hs : List Nat) (block : List Nat) : List Nat :=
  let ws := extendSched 48 (bytesToWords block)
  let st0 : ShaState :=
    ⟨hs.getD 0 0, hs.getD 1 0, hs.getD 2 0, hs.getD 3 0,
     hs.getD 4 0, hs.getD 5 0, hs.getD 6 0, hs.getD 7 0⟩
  let st := (sha256K.zip ws).foldl shaRound st0
  [w32 (hs.getD 0 0 + st.a), w32 (hs.getD 1 0 + st.b),
   w32 (hs.getD 2 0 + st.c), w32 (hs.getD 3 0 + st.d),
   w32 (hs.getD 4 0 + st.e), w32 (hs.getD 5 0 + st.f),
   w32 (hs.getD 6 0 + st.g), w32 (hs.getD 7 0 + st.h)]

/-- SHA-256 digest of a byte list, as 32 bytes (`hashlib.sha256(...)`;
a single hash over one concatenated stream also models the incremental
`h.update(...)` loop of `aggregated_checksum`). -/
def sha256 (msg : List Nat) : List Nat :=
  let hs := (chunksAux [] (shaPad msg)).foldl shaBlock sha256H0
  hs.flatMap (fun wv => [wv / 16777216 % 256, wv / 65536 % 256, wv / 256 % 256, wv % 256])

/-- Lower-case hexadecimal digit. -/
def hexDigit (n : Nat) : Char := Char.ofNat (if n < 10 then 48 + n else 87 + n)

/-- Lower-case hexadecimal rendering of a byte list (`.hexdigest()`). -/
def bytesToHex (bs : List Nat) : String :=
  ⟨bs.flatMap (fun b => [hexDigit (b / 16), hexDigit (b % 16)])⟩

/-- Together `replaceCRLF`, `replaceCR` and the final strip make up the
normalization shared by `manifest.content_checksum` and
`document.normalized_content_for_checksum`. -/
def normChars (cs : List Char) : List Char :=
  pyStripChars (replaceCR (replaceCRLF cs))

/-- Python `manifest.content_checksum(raw_content)`: normalize line endings
(`\r\n` then lone `\r` to `\n`), strip surrounding whitespace, encode UTF-8,
hash with SHA-256 and render as `sha256:<hex>`. -/
def content_checksum (raw_content : String) : String :=
  "sha256:" ++ bytesToHex (sha256 (utf8Encode (normChars raw_content.data)))

/-- Python `document.normalized_content_for_checksum(doc, raw_content)`: the
normalized UTF-8 bytes fed to the aggregate hash (the `doc` argument is
unused in the source as well). -/
def normalized_content_for_checksum (raw_content : String) : List Nat :=
  utf8Encode (normChars raw_content.data)

/-- Scalar Python values occurring in parsed frontmatter. -/
inductive PyScalar where
  | snone
  | sbool (b : Bool)
  | sint (n : Int)
  | sstr (s : String)
deriving DecidableEq

/-- A frontmatter mapping value: a scalar or a flat list of scalars (the
fragment of YAML values the convention's documents use). -/
inductive PyField where
  | fscalar (v : PyScalar)
  | flist (xs : List PyScalar)
deriving DecidableEq

/-- A `yaml.safe_load` result: a scalar (`None` included), a list, or a
mapping with string keys. -/
inductive PyYaml where
  | yscalar (v : PyScalar)
  | ylist (xs : List PyScalar)
  | ydict (xs : List (String × PyField))
deriving DecidableEq

/-- The YAML library, kept as a parameter: parsing either raises
`yaml.YAMLError` (modelled `.error`) or returns a value. -/
abbrev Yaml := String → Except String PyYaml

/-- Python `str()` of a scalar. -/
def pyScalarStr : PyScalar → String
  | .snone => "None"
  | .sbool true => "True"
  | .sbool false => "False"
  | .sint n => toString n
  | .sstr s => s

/-- Python `repr()` of a scalar (string escaping elided). -/
def pyScalarRepr : PyScalar → String
  | .sstr s => "\x27" ++ s ++ "\x27"
  | v => pyScalarStr v

/-- Python `str()` of a frontmatter field value. -/
def pyFieldStr : PyField → String
  | .fscalar v => pyScalarStr v
  | .flist xs => "[" ++ String.intercalate ", " (xs.map pyScalarRepr) ++ "]"

/-- Python truthiness of a frontmatter field value. -/
def pyTruthy : PyField → Bool
  | .fscalar .snone => false
  | .fscalar (.sbool b) => b
  | .fscalar (.sint n) => n ≠ 0
  | .fscalar (.sstr s) => s ≠ ""
  | .flist xs => !xs.isEmpty

/-- Accumulate the value of a digit run, allowing single underscores
between digits as Python `int(str)` does. -/
def digitsToInt : Nat → List Char → Option Nat
  | acc, [] => some acc
  | acc, '_' :: c :: rest =>
    if c.isDigit then digitsToInt (acc * 10 + (c.toNat - 48)) rest else none
  | acc, c :: rest =>
    if c.isDigit then digitsToInt (acc * 10 + (c.toNat - 48)) rest else none

/-- Python `int(s)` for a string: surrounding whitespace and one sign
allowed, then ASCII digits (`none` models `ValueError`). -/
def pyStrToInt (s : String) : Option Int :=
  match pyStripChars s.data with
  | '+' :: c :: rest =>
    if c.isDigit then (digitsToInt 0 (c :: rest)).map Int.ofNat else none
  | '-' :: c :: rest =>
    if c.isDigit then (digitsToInt 0 (c :: rest)).map (fun n => -(Int.ofNat n)) else none
  | c :: rest =>
    if c.isDigit then (digitsToInt 0 (c :: rest)).map Int.ofNat else none
  | [] => none

/-- Python `int(v)` on a frontmatter value; `none` models `TypeError` or
`ValueError`. -/
def pyIntCoerce : PyField → Option Int
  | .fscalar .snone => none
  | .fscalar (.sbool b) => some (if b then 1 else 0)
  | .fscalar (.sint n) => some n
  | .fscalar (.sstr s) => pyStrToInt s
  | .flist _ => none

/-- Python `document.normalize_version`: `None` gives 1, otherwise `int(v)`
with 1 on `TypeError`/`ValueError`. -/
def normalize_version (v : PyField) : Int :=
  match v with
  | .fscalar .snone => 1
  | v => (pyIntCoerce v).getD 1

/-- Python `document.normalize_tags`: `None` gives `[]`, a list maps `str`
over its items, any other value becomes a one-element list. -/
def normalize_tags : PyField → List String
  | .fscalar .snone => []
  | .flist xs => xs.map pyScalarStr
  | v => [pyFieldStr v]

/-- Python `dict.get(k)` on an insertion-ordered string-keyed mapping
(first binding wins; parsed mappings have unique keys). -/
def dictGet (xs : List (String × PyField)) (k : String) : PyField :=
  (xs.lookup k).getD (.fscalar .snone)

/-- Parsed document with normalized metadata (`document.Document`); `path`
holds the root-relative path segments. -/
structure Document where
  path : List String
  id : String
  kind : String
  version : Int
  status : Option String := none
  complexity : Option String := none
  tags : List String := []
  raw_frontmatter : List (String × PyField) := []
  body : String := ""
  references : List String := []
  owner : Option String := none
deriving DecidableEq

/-- Rendering of a root-relative path for error messages (Python prints the
`Path`; the convention root prefix is elided in the model). -/
def pathStr (p : List String) : String := String.intercalate "/" p

/-- Stage value of `parse_frontmatter`: the stripped content
(`content.strip()`). -/
def fmStripped (content : String) : List Char := pyStripChars content.data

/-- Stage value of `parse_frontmatter`: after dropping the opening delimiter
and the CR/LF characters following it
(`content[len(FRONTMATTER_DELIM):].lstrip("\r\n")`). -/
def fmRest (content : String) : List Char :=
  dropLeadWhile (fun ch => ch = '\r' || ch = '\n') ((fmStripped content).drop 3)

/-- Stage value of `parse_frontmatter`: position of the closing delimiter
(`rest.find("\n---")`, falling back to `rest.find("\r\n---")`). -/
def fmClosingIdx (content : String) : Option Nat :=
  match findSub ('\n' :: "---".data) (fmRest content) with
  | some i => some i
  | none => findSub ('\r' :: '\n' :: "---".data) (fmRest content)

/-- Stage value of `parse_frontmatter`: the delimited block handed to the
YAML library (`rest[:idx].strip()`), given the closing position. -/
def fmBlockStr (content : String) (i : Nat) : String :=
  ⟨pyStripChars ((fmRest content).take i)⟩

/-- Stage value of `parse_frontmatter`: the body after the closing delimiter
(`rest[idx + 1:].split("---", 1)[-1].lstrip("\r\n")`). -/
def fmBody (content : String) (i : Nat) : String :=
  ⟨dropLeadWhile (fun ch => ch = '\r' || ch = '\n')
    (afterFirstSub "---".data ((fmRest content).drop (i + 1)))⟩

/-- Python `document.parse_frontmatter(content)`: strip the content, demand
a leading `---`, find the closing `\n---` (or `\r\n---`), parse the block
with the YAML library and demand a mapping (`None` counting as the empty
mapping); returns the mapping and body. -/
def parse_frontmatter (yload : Yaml) (content : String) :
    Except String (List (String × PyField) × String) :=
  if !startsWithL (fmStripped content) "---".data then
    .error "Missing opening frontmatter delimiter ---"
  else
    match fmClosingIdx content with
    | none => .error "Missing closing frontmatter delimiter ---"
    | some i =>
      match yload (fmBlockStr content i) with
      | .error e => .error ("Invalid YAML in frontmatter: " ++ e)
      | .ok (.yscalar .snone) => .ok ([], fmBody content i)
      | .ok (.ydict fm) => .ok (fm, fmBody content i)
      | .ok _ => .error "Frontmatter must be a YAML mapping"

/-- Python `document.parse_document(file_path, content, root)`: parse the
frontmatter, demand truthy `id` and `kind`, normalize the remaining fields
(the `root` argument is unused in the source). -/
def parse_document (yload : Yaml) (path : List String) (content : String) :
    Except String Document :=
  match parse_frontmatter yload content with
  | .error e => .error e
  | .ok (fm, body) =>
    let docId := dictGet fm "id"
    let kind := dictGet fm "kind"
    if !pyTruthy docId || !pyTruthy kind then
      .error "Frontmatter must contain id and kind"
    else
      .ok { path := path
            id := pyStrip (pyFieldStr docId)
            kind := pyStrip (pyFieldStr kind)
            version := normalize_version (dictGet fm "version")
            status := match dictGet fm "status" with
              | .fscalar .snone => none
              | v => some (pyStrip (pyFieldStr v))
            complexity := match dictGet fm "complexity" with
              | .fscalar .snone => none
              | v => some (pyStrip (pyFieldStr v))
            tags := normalize_tags (dictGet fm "tags")
            raw_frontmatter := fm
            body := body
            references := normalize_tags (dictGet fm "references")
            owner := match dictGet fm "owner" with
              | .fscalar .snone => none
              | v => some (pyStrip (pyFieldStr v)) }

/-- Status enum of `config.STATUS_VALUES`, in `sorted` order. -/
def STATUS_VALUES : List String := ["active", "historical", "obsolete"]

/-- Complexity enum of `config.COMPLEXITY_VALUES`, in `sorted` order. -/
def COMPLEXITY_VALUES : List String := ["critical", "normal", "trivial"]

/-- Python `document.validate_document_schema(doc)`: required fields and
enums per kind; `some msg` models the raised `ValidationError`, rendered as
its `str` (`f"{path}: {message}"`). -/
def validate_document_schema (d : Document) : Option String :=
  if d.kind = "spec" then
    if d.id = "" then some (pathStr d.path ++ ": spec requires field: id")
    else match d.status, d.complexity with
      | none, _ => some (pathStr d.path ++ ": spec requires field: status")
      | some _, none => some (pathStr d.path ++ ": spec requires field: complexity")
      | some st, some cx =>
        if !STATUS_VALUES.contains st then
          some (pathStr d.path ++
            ": status must be one of [\x27active\x27, \x27historical\x27, \x27obsolete\x27]")
        else if !COMPLEXITY_VALUES.contains cx then
          some (pathStr d.path ++
            ": complexity must be one of [\x27critical\x27, \x27normal\x27, \x27trivial\x27]")
        else none
  else if d.kind = "rule" then
    if d.id = "" then some (pathStr d.path ++ ": rule requires field: id") else none
  else
    if d.id = "" || d.kind = "" then
      some (pathStr d.path ++ ": document must have id and kind")
    else none

/-- One task directory under `tasks/`: its name and its files, as a mapping
from filename to raw file content. -/
structure TaskDir where
  name : String
  files : List (String × String)
deriving DecidableEq

/-- A convention root: the files directly under `rules/` (filename to raw
content) and the directories under `tasks/`. -/
structure Root where
  rules : List (String × String)
  tasks : List TaskDir
deriving DecidableEq

/-- Python `indexer.collect_rules`: the `*.md` files under `rules/`, sorted
by path (a missing `rules/` directory is the empty list). -/
def collect_rules (root : Root) : List (String × String) :=
  sortByKey (fun f => f.1) (root.rules.filter (fun f => endsWithL f.1.data ".md".data))

/-- Python `indexer.collect_task_dirs`: immediate subdirectories of `tasks/`
that contain a `spec.md`, in sorted order. -/
def collect_task_dirs (root : Root) : List TaskDir :=
  (sortByKey (fun td => td.name) root.tasks).filter
    (fun td => (td.files.lookup "spec.md").isSome)

/-- Python `indexer.TRIVIAL_FILES` (a set in the source; listed in literal
order here). -/
def TRIVIAL_FILES : List String := ["spec.md", "implementation.md"]

/-- Python `indexer.NORMAL_FILES`. -/
def NORMAL_FILES : List String :=
  ["spec.md", "plan.md", "implementation.md", "tests-review.md"]

/-- Python `indexer.CRITICAL_FILES`. -/
def CRITICAL_FILES : List String :=
  ["spec.md", "context.md", "plan.md", "implementation.md", "review.md", "tests-review.md"]

/-- Python `indexer.required_files_for_complexity(complexity)`. -/
def required_files_for_complexity (complexity : Option String) : List String :=
  if complexity = some "trivial" then TRIVIAL_FILES
  else if complexity = some "critical" then CRITICAL_FILES
  else NORMAL_FILES

/-- Accumulator of `build_index`: the insertion-ordered key-to-document
index (unique keys) and the collected error strings. -/
structure IndexState where
  index : List (String × Document)
  errors : List String
deriving DecidableEq

/-- Python `key in index` on the modelled mapping. -/
def containsKey (idx : List (String × Document)) (k : String) : Bool :=
  idx.any (fun kd => kd.1 = k)

/-- Shared insertion step of `build_index`: a fresh key is appended to the
index, a duplicate key appends exactly one error naming the path and the
key (`label` is "duplicate id" for rules and specs, "duplicate key" for
task artifacts) and leaves the index unchanged. -/
def tryInsert (st : IndexState) (pstr k : String) (doc : Document) (label : String) :
    IndexState :=
  if containsKey st.index k then
    { st with errors := st.errors ++ [pstr ++ ": " ++ label ++ " " ++ k] }
  else
    { st with index := st.index ++ [(k, doc)] }

/-- The `collect_rules` loop of `build_index`: parse each rule file, key it
by its own id; parse failures become one error each. -/
def processRules (yload : Yaml) : List (String × String) → IndexState → IndexState
  | [], st => st
  | (fname, content) :: rest, st =>
    let p := pathStr ["rules", fname]
    match parse_document yload ["rules", fname] content with
    | .ok doc => processRules yload rest (tryInsert st p doc.id doc "duplicate id")
    | .error e => processRules yload rest { st with errors := st.errors ++ [p ++ ": " ++ e] }

/-- The fixed artifact filename tuple iterated inside each task directory. -/
def ARTIFACT_FILES : List String :=
  ["context.md", "plan.md", "implementation.md", "review.md", "tests-review.md"]

/-- Python `str.removesuffix`. -/
def removeSfx (s sfx : String) : String :=
  if endsWithL s.data sfx.data then ⟨s.data.take (s.data.length - sfx.data.length)⟩ else s

/-- The artifact loop of `build_index` within one task directory: files
present on disk are parsed and keyed `<dirname>-<artifactname>`. -/
def processArtifacts (yload : Yaml) (td : TaskDir) : List String → IndexState → IndexState
  | [], st => st
  | name :: rest, st =>
    if name = "spec.md" then processArtifacts yload td rest st
    else match td.files.lookup name with
      | none => processArtifacts yload td rest st
      | some content =>
        let p := pathStr ["tasks", td.name, name]
        match parse_document yload ["tasks", td.name, name] content with
        | .ok doc =>
          let key := td.name ++ "-" ++ removeSfx name ".md"
          processArtifacts yload td rest (tryInsert st p key doc "duplicate key")
        | .error e =>
          processArtifacts yload td rest { st with errors := st.errors ++ [p ++ ": " ++ e] }

/-- One task directory of `build_index`: index `spec.md` under
`<dirname>-spec`, then the artifact files; a duplicate spec key skips the
directory's artifacts (the `continue` in the source), while a spec parse
failure does not. -/
def processTaskDir (yload : Yaml) (st : IndexState) (td : TaskDir) : IndexState :=
  let specPath := pathStr ["tasks", td.name, "spec.md"]
  let specId := td.name ++ "-spec"
  match td.files.lookup "spec.md" with
  | none => st
  | some content =>
    match parse_document yload ["tasks", td.name, "spec.md"] content with
    | .ok doc =>
      let st' := tryInsert st specPath specId doc "duplicate id"
      if containsKey st.index specId then st'
      else processArtifacts yload td ARTIFACT_FILES st'
    | .error e =>
      processArtifacts yload td ARTIFACT_FILES
        { st with errors := st.errors ++ [specPath ++ ": " ++ e] }

/-- The task loop of `build_index`. -/
def processTasks (yload : Yaml) : List TaskDir → IndexState → IndexState
  | [], st => st
  | td :: rest, st => processTasks yload rest (processTaskDir yload st td)

/-- Python `indexer.build_index(root)`: index and collected error list. -/
def build_index (yload : Yaml) (root : Root) :
    List (String × Document) × List String :=
  let st := processTasks yload (collect_task_dirs root)
    (processRules yload (collect_rules root) ⟨[], []⟩)
  (st.index, st.errors)

/-- Python `validate.ref_exists(ref_id, index)`. -/
def ref_exists (refId : String) (index : List (String × Document)) : Bool :=
  if containsKey index refId then true
  else if containsKey index (refId ++ "-spec") then true
  else false

/-- The error string for one unresolved reference. -/
def refMsg (d : Document) (r : String) : String :=
  pathStr d.path ++ ": reference to unknown id " ++ r

/-- Python `validate.validate_references(index)`. -/
def validate_references (index : List (String × Document)) : List String :=
  index.flatMap (fun kd => kd.2.references.filterMap (fun r =>
    if ref_exists r index then none else some (refMsg kd.2 r)))

/-- The error string for one missing required file. -/
def reqMsg (tdName f cx : String) : String :=
  pathStr ["tasks", tdName, f] ++ ": required file missing (complexity=" ++ cx ++ ")"

/-- The per-task body of `validate_required_files`: an unindexed spec skips
the task; the complexity falls back to "normal" when absent or falsy. -/
def requiredErrorsForTask (td : TaskDir) (index : List (String × Document)) :
    List String :=
  match index.lookup (td.name ++ "-spec") with
  | none => []
  | some d =>
    let cx := match d.complexity with
      | some c => if c = "" then "normal" else c
      | none => "normal"
    (required_files_for_complexity (some cx)).filterMap (fun f =>
      if (td.files.lookup f).isSome then none else some (reqMsg td.name f cx))

/-- Python `validate.validate_required_files(root, index)` (a missing
`tasks/` directory is the empty task list). -/
def validate_required_files (root : Root) (index : List (String × Document)) :
    List String :=
  (collect_task_dirs root).flatMap (fun td => requiredErrorsForTask td index)

/-- Python `validate.run_validate(root)`: build the index, short-circuit on
parse errors, otherwise concatenate schema, required-file and reference
errors. -/
def run_validate (yload : Yaml) (root : Root) :
    Bool × List String × List (String × Document) :=
  let bi := build_index yload root
  let index := bi.1
  let parse_errors := bi.2
  if !parse_errors.isEmpty then (false, parse_errors, index)
  else
    let errors := parse_errors ++ index.filterMap (fun kd => validate_document_schema kd.2)
      ++ validate_required_files root index ++ validate_references index
    (errors.isEmpty, errors, index)

/-- Reading a root-relative path from the modelled convention root
(`Path.read_text`; indexed documents always name existing files). -/
def readFile (root : Root) : List String → Option String
  | ["rules", f] => root.rules.lookup f
  | ["tasks", d, f] =>
    (root.tasks.find? (fun td => td.name = d)).bind (fun td => td.files.lookup f)
  | _ => none

/-- Python `Path.parent.name` of a root-relative path. -/
def parentName (p : List String) : String := (p.dropLast.getLast?).getD ""

/-- The `active_spec_ids` set of `aggregated_checksum`: every indexed
document of kind `spec` with status `active` contributes its key with the
first occurrence of `-spec` removed when the key ends in `-spec` (the
source's `doc_id.replace("-spec", "", 1)`). -/
def active_spec_ids (index : List (String × Document)) : List String :=
  index.filterMap (fun kd =>
    if kd.2.kind = "spec" && kd.2.status = some "active" then
      some (if endsWithL kd.1.data "-spec".data then
        (⟨removeFirstSub "-spec".data kd.1.data⟩ : String) else kd.1)
    else none)

/-- The task-artifact kinds recognized by `aggregated_checksum`. -/
def ARTIFACT_KINDS : List String :=
  ["context", "plan", "implementation", "review", "tests-review"]

/-- The eligibility filter of `aggregated_checksum`: rules always; specs
unless `read_mode` is "active" and the status is not; task-artifact kinds
when the parent directory name is in `active_spec_ids` (or the mode is not
"active"); other kinds never. -/
def aggEligible (index : List (String × Document)) (read_mode : String) :
    List (String × Document) :=
  let ids := active_spec_ids index
  index.filter (fun kd =>
    if kd.2.kind = "rule" then true
    else if kd.2.kind = "spec" then
      !(read_mode = "active" && kd.2.status ≠ some "active")
    else if ARTIFACT_KINDS.contains kd.2.kind then
      let tid := parentName kd.2.path
      if tid ≠ "" && tid ≠ "tasks" && ids.contains tid then true
      else read_mode ≠ "active"
    else false)

/-- The byte stream hashed by `aggregated_checksum`: the eligible documents
sorted by index key, their files' normalized contents concatenated (the
incremental `h.update` loop feeds exactly this stream). -/
def aggregatedStream (root : Root) (index : List (String × Document))
    (read_mode : String) : List Nat :=
  (sortByKey (fun kd => kd.1) (aggEligible index read_mode)).flatMap
    (fun kd => normalized_content_for_checksum ((readFile root kd.2.path).getD ""))

/-- Python `manifest.aggregated_checksum(index, root, read_mode)`. -/
def aggregated_checksum (root : Root) (index : List (String × Document))
    (read_mode : String) : String :=
  "sha256:" ++ bytesToHex (sha256 (aggregatedStream root index read_mode))

/-- One entry of an adapter declaration's `documents` list (absent JSON keys
are `none`). -/
structure AdapterEntry where
  id : Option String := none
  kind : Option String := none
  source : Option String := none
  target : Option String := none
  version : Option Int := none
  tags : List String := []
deriving DecidableEq

/-- An adapter declaration (`adapters/<name>/context.json`, already loaded;
`load_adapter_spec` requires `output_dir`). -/
structure AdapterSpec where
  output_dir : String
  documents : List AdapterEntry
deriving DecidableEq

/-- One enriched payload entry produced by `build_payload`. -/
structure PayloadDoc where
  id : String
  kind : String
  source : String
  target : String
  version : Int
  status : Option String := none
  complexity : Option String := none
  checksum : Option String := none
  tags : List String := []
deriving DecidableEq

/-- Python `(root / p).resolve()` in the flat-path model: absolute paths
stand alone, relative ones are joined under the root. -/
def resolveUnder (rootPath p : String) : String :=
  if startsWithL p.data "/".data then p else rootPath ++ "/" ++ p

/-- File existence in the flat filesystem of the export model. -/
def isFile (fs : List (String × String)) (p : String) : Bool := (fs.lookup p).isSome

/-- The resolved on-disk path of an indexed document. -/
def docFullPath (rootPath : String) (d : Document) : String :=
  rootPath ++ "/" ++ pathStr d.path

/-- Python `_index_by_path` lookup: resolved path to document, later
bindings overwriting earlier ones as dict assignment does. -/
def byPathGet (rootPath : String) (index : List (String × Document)) (p : String) :
    Option Document :=
  ((index.map (fun kd => (docFullPath rootPath kd.2, kd.2))).reverse.lookup p)

/-- The `if not source` guard of `build_payload`: a declared source is
usable when present and nonempty (Python falsiness of `None` and `""`). -/
def entrySrc (e : AdapterEntry) : Option String :=
  match e.source with
  | none => none
  | some s => if s = "" then none else some s

/-- The document the enrichment step finds for one entry
(`index.get(entry.get("id")) or by_path.get(src_path)`). -/
def entryIndexed (rootPath : String) (index : List (String × Document))
    (e : AdapterEntry) (srcPath : String) : Option Document :=
  (match e.id with
    | some i => index.lookup i
    | none => none).orElse (fun _ => byPathGet rootPath index srcPath)

/-- One payload entry of `build_payload`: enriched from the index when the
document is indexed, from the declaration otherwise. -/
def mkPayloadDoc (rootPath : String) (fs : List (String × String))
    (e : AdapterEntry) (src target : String) (indexed : Option Document) :
    PayloadDoc :=
  match indexed with
  | some idoc =>
    { id := e.id.getD "", kind := e.kind.getD "", source := src, target := target
      version := idoc.version, status := idoc.status, complexity := idoc.complexity
      checksum := some (content_checksum
        ((fs.lookup (docFullPath rootPath idoc)).getD ""))
      tags := idoc.tags }
  | none =>
    { id := e.id.getD "", kind := e.kind.getD "", source := src, target := target
      version := e.version.getD 1, status := none, complexity := none
      checksum := none, tags := e.tags }

/-- The entry loop of `build_payload`: validate every declared source before
anything is copied, enriching from the index when the id or resolved source
path is indexed. -/
def buildPayloadDocs (rootPath : String) (fs : List (String × String))
    (index : List (String × Document)) (adapter_name : String) :
    List AdapterEntry → Except String (List PayloadDoc)
  | [] => .ok []
  | e :: rest =>
    match entrySrc e with
    | none => .error ("Adapter " ++ adapter_name ++ ": document entry missing \x27source\x27")
    | some src =>
      if !isFile fs (resolveUnder rootPath src) then
        .error ("Adapter " ++ adapter_name ++ ": source not found: " ++ src)
      else
        match buildPayloadDocs rootPath fs index adapter_name rest with
        | .ok ds => .ok (mkPayloadDoc rootPath fs e src (e.target.getD src)
            (entryIndexed rootPath index e (resolveUnder rootPath src)) :: ds)
        | .error er => .error er

/-- Python `adapters.base.build_payload(spec, root, index, adapter_name)`. -/
def build_payload (spec : AdapterSpec) (rootPath : String)
    (fs : List (String × String)) (index : List (String × Document))
    (adapter_name : String) : Except String (String × List PayloadDoc) :=
  match buildPayloadDocs rootPath fs index adapter_name spec.documents with
  | .ok ds => .ok (spec.output_dir, ds)
  | .error e => .error e

/-- The output base directory of an export (`run_export`/`_copy_documents`:
absolute `output_dir` stands alone, relative is joined under the root). -/
def outBase (rootPath output_dir : String) : String :=
  if startsWithL output_dir.data "/".data then output_dir else rootPath ++ "/" ++ output_dir

/-- Crude JSON rendering of one payload entry for `context.json` (escaping
elided; the exact text is not load-bearing for any claim). -/
def payloadDocJson (d : PayloadDoc) : String :=
  "\x7b\"id\": \"" ++ d.id ++ "\", \"source\": \"" ++ d.source ++
    "\", \"target\": \"" ++ d.target ++ "\"\x7d"

/-- Crude JSON rendering of the exported `context.json` body. -/
def renderContextJson (output_dir : String) (docs : List PayloadDoc) : String :=
  "\x7b\"output_dir\": \"" ++ output_dir ++ "\", \"documents\": [" ++
    String.intercalate ", " (docs.map payloadDocJson) ++ "]\x7d"

/-- Python `adapters.base.run_export`, modelled as the ordered list of file
writes it performs: `build_payload` validates every declared source first,
then each declared document is copied to `output_dir/target`, then
`context.json` is written; `.error` means it raised before any write (the
loading of the declaration file itself is elided — the declaration is the
input). -/
def run_export (spec : AdapterSpec) (rootPath : String)
    (fs : List (String × String)) (index : List (String × Document))
    (adapter_name : String) : Except String (List (String × String)) :=
  match build_payload spec rootPath fs index adapter_name with
  | .error e => .error e
  | .ok (output_dir, docs) =>
    let out := outBase rootPath output_dir
    let copies := docs.map (fun d =>
      (out ++ "/" ++ d.target, (fs.lookup (resolveUnder rootPath d.source)).getD ""))
    .ok (copies ++ [(out ++ "/context.json", renderContextJson output_dir docs)])

/-- Split on newline characters, keeping empty segments. -/
def splitOnNL : List Char → List (List Char)
  | [] => [[]]
  | '\n' :: rest => [] :: splitOnNL rest
  | c :: rest =>
    match splitOnNL rest with
    | s :: ss => (c :: s) :: ss
    | [] => [[c]]

/-- Parse one `key: value` line of the minimal mapping syntax. -/
def yamlSimpleLine (cs : List Char) : Option (String × PyField) :=
  match findSub [':'] cs with
  | some i =>
    some (⟨pyStripChars (cs.take i)⟩, .fscalar (.sstr ⟨pyStripChars (cs.drop (i + 1))⟩))
  | none => none

/-- A minimal concrete YAML parser standing in for the library in concrete
instances: flat `key: value` lines with string scalar values; empty input
gives `None`; anything else fails. -/
def yamlSimple : Yaml := fun s =>
  let lines := (splitOnNL s.data).filter (fun l => !(pyStripChars l).isEmpty)
  if lines.isEmpty then .ok (.yscalar .snone)
  else match lines.mapM yamlSimpleLine with
    | some kvs => .ok (.ydict kvs)
    | none => .error "could not determine a constructor"

/-- Line-ending normalization alone: the two replaces of the checksum
pipeline, before the final strip. -/
def eolNorm (cs : List Char) : List Char := replaceCR (replaceCRLF cs)

/-- Segments of a content between line breaks, where `\r\n`, lone `\r` and
lone `\n` each end one segment: two contents have equal `splitEOL` exactly
when they differ only in the style chosen for each line break. -/
def splitEOL : List Char → List (List Char)
  | [] => [[]]
  | [c] => if c = '\r' || c = '\n' then [[], []] else [[c]]
  | c :: d :: rest =>
    if c = '\r' && d = '\n' then [] :: splitEOL rest
    else if c = '\r' || c = '\n' then [] :: splitEOL (d :: rest)
    else match splitEOL (d :: rest) with
      | s :: ss => (c :: s) :: ss
      | [] => [[c]]

/-- Join segments with `\n` between them. -/
def joinLF : List (List Char) → List Char
  | [] => []
  | [s] => s
  | s :: ss => s ++ '\n' :: joinLF ss

/-- Document eligibility for the aggregate checksum as claim C1 words it:
every rule; every spec with status active; every task-artifact document
whose task directory has a spec document with status active in the index. -/
def claimEligible (index : List (String × Document)) : List (String × Document) :=
  index.filter (fun kd =>
    kd.2.kind = "rule" ||
    (kd.2.kind = "spec" && kd.2.status = some "active") ||
    (ARTIFACT_KINDS.contains kd.2.kind &&
      (match index.lookup (parentName kd.2.path ++ "-spec") with
       | some sd => sd.kind = "spec" && sd.status = some "active"
       | none => false)))

/-- The aggregate byte stream as claim C1 words it: the eligible documents
in ascending key order, normalized contents concatenated. -/
def claimAggregatedStream (root : Root) (index : List (String × Document)) :
    List Nat :=
  (sortByKey (fun kd => kd.1) (claimEligible index)).flatMap
    (fun kd => normalized_content_for_checksum ((readFile root kd.2.path).getD ""))

/-- Whether a YAML outcome is a parse failure or not a mapping (`None`
counts as the empty mapping, as in the source). -/
def yamlNotMapping : Except String PyYaml → Bool
  | .error _ => true
  | .ok (.yscalar .snone) => false
  | .ok (.ydict _) => false
  | .ok _ => true

/-- The mapping a successful YAML outcome denotes. -/
def yamlMapOf : Except String PyYaml → List (String × PyField)
  | .ok (.ydict fm) => fm
  | _ => []

/-- Concrete spec content used in the aggregate-checksum scenarios. -/
def exSpecContent : String :=
  "---\nid: s1\nkind: spec\nstatus: active\ncomplexity: normal\n---\nSpec body"

/-- Concrete plan content used in the aggregate-checksum scenarios. -/
def exPlanContent : String := "---\nid: p1\nkind: plan\n---\nPlan body"

/-- A convention root with one task directory whose name contains `-spec`
in the middle, an active spec and one plan artifact. -/
def exRootAgg : Root :=
  ⟨[], [⟨"a-spec-b", [("spec.md", exSpecContent), ("plan.md", exPlanContent)]⟩]⟩

/-- Concrete rule content used in the duplicate-key and validate scenarios. -/
def exRuleContent : String := "---\nid: r1\nkind: rule\n---\nFirst rule"

/-- A second rule file carrying the same id with different content. -/
def exRuleDupContent : String := "---\nid: r1\nkind: rule\n---\nSecond rule"

/-- A root with two rule files sharing one id. -/
def exRootDup : Root :=
  ⟨[("a.md", exRuleContent), ("b.md", exRuleDupContent)], []⟩

/-- A root with one unparsable rule file. -/
def exRootBad : Root := ⟨[("bad.md", "no frontmatter")], []⟩

/-- A clean root with one rule file. -/
def exRootClean : Root := ⟨[("a.md", exRuleContent)], []⟩

/-- A task directory with a critical spec and a missing review file. -/
def exRootCritical : Root :=
  ⟨[], [⟨"t1", [("spec.md",
    "---\nid: t1\nkind: spec\nstatus: active\ncomplexity: critical\n---\nS"),
    ("context.md", "---\nid: c1\nkind: context\n---\nC"),
    ("plan.md", "---\nid: pl\nkind: plan\n---\nP"),
    ("implementation.md", "---\nid: im\nkind: implementation\n---\nI"),
    ("tests-review.md", "---\nid: tr\nkind: tests-review\n---\nT")]⟩]⟩

/-- A task directory whose spec declares a misspelled complexity. -/
def exRootWeird : Root :=
  ⟨[], [⟨"t2", [("spec.md",
    "---\nid: t2\nkind: spec\nstatus: active\ncomplexity: weird\n---\nS"),
    ("implementation.md", "---\nid: im2\nkind: implementation\n---\nI")]⟩]⟩

/-- Concrete content whose leading whitespace precedes the opening
delimiter. -/
def exLeadingWS : String := " ---\nid: a\nkind: rule\n---\nbody"

/-- A tiny export scenario: one declared document whose source exists and
one whose source is absent. -/
def exFsOk : List (String × String) := [("/r/doc.md", "content")]

/-- A declaration of one existing source. -/
def exSpecOk : AdapterSpec := ⟨"out", [{ source := some "doc.md" }]⟩

/-- A declaration that also names a missing source after the existing one. -/
def exSpecMissing : AdapterSpec :=
  ⟨"out", [{ source := some "doc.md" }, { source := some "gone.md" }]⟩

/-- The complexity tier as claim C4 words it: the spec's complexity, with
`normal` used when the field is absent. -/
def claimTier (complexity : Option String) : String := complexity.getD "normal"

/-- The required artifact filename set as claim C4 words it, keyed by the
tier. -/
def claimRequiredSet (complexity : Option String) : List String :=
  if claimTier complexity = "trivial" then
    ["spec.md", "implementation.md"]
  else if claimTier complexity = "critical" then
    ["spec.md", "context.md", "plan.md", "implementation.md", "review.md", "tests-review.md"]
  else
    ["spec.md", "plan.md", "implementation.md", "tests-review.md"]

/-- A placeholder document for `Option.getD` in concrete instances. -/
def emptyDoc : Document :=
  { path := [], id := "", kind := "", version := 1 }

/-- The rule document indexed from `exRootClean`. -/
def exDocR1 : Document :=
  ((build_index yamlSimple exRootClean).1.lookup "r1").getD emptyDoc

/-- The document parsed from the second, duplicate rule file of
`exRootDup`. -/
def exDocR1Dup : Document :=
  ((parse_document yamlSimple ["rules", "b.md"] exRuleDupContent).toOption).getD emptyDoc

/-- The task directory of `exRootCritical`. -/
def exTdCritical : TaskDir := (collect_task_dirs exRootCritical).getD 0 ⟨"", []⟩

/-- The index built from `exRootCritical`. -/
def exIdxCritical : List (String × Document) := (build_index yamlSimple exRootCritical).1

/-- The spec document of `exRootCritical`. -/
def exSpecDocCritical : Document := (exIdxCritical.lookup "t1-spec").getD emptyDoc

/-- The task directory of `exRootWeird`. -/
def exTdWeird : TaskDir := (collect_task_dirs exRootWeird).getD 0 ⟨"", []⟩

/-- The index built from `exRootWeird`. -/
def exIdxWeird : List (String × Document) := (build_index yamlSimple exRootWeird).1

/-- The spec document of `exRootWeird` (misspelled complexity). -/
def exSpecDocWeird : Document := (exIdxWeird.lookup "t2-spec").getD emptyDoc

/-! ## Theorems -/

/-- Helper: a `filterMap` keeping exactly the elements failing `p`, mapped
through `m`, is the mapped filter of the complement. -/
theorem filterMap_keep_failing (p : α → Bool) (m : α → β) (l : List α) :
    l.filterMap (fun r => if p r then none else some (m r)) =
      (l.filter (fun r => !p r)).map m := by
  induction l with
  | nil => rfl
  | cons a t ih =>
    by_cases h : p a = true <;>
      simp [List.filterMap_cons, List.filter_cons, h, ih]

/-- C8 counterexample: the claim promises a positive integer, but a
frontmatter `version` of `0` is returned unchanged, which is not
positive. -/
theorem normalize_version_zero_counterexample :
    normalize_version (.fscalar (.sint 0)) = 0 ∧
    ¬(0 < normalize_version (.fscalar (.sint 0))) := by
  decide

/-- C8 (amended): parsing coerces the `version` field through Python
`int`, and never raises: a missing field (`None`) gives 1, a value `int`
rejects gives 1, and any value `int` accepts is returned as that integer —
which is therefore not guaranteed to be positive. -/
theorem normalize_version_amended :
    normalize_version (.fscalar .snone) = 1 ∧
    (∀ v : PyField, pyIntCoerce v = none → normalize_version v = 1) ∧
    (∀ (v : PyField) (n : Int), pyIntCoerce v = some n → normalize_version v = n) := by
  refine ⟨rfl, ?_, ?_⟩
  · intro v h
    cases v with
    | fscalar s => cases s <;> simp_all [normalize_version]
    | flist xs => simp [normalize_version, h]
  · intro v n h
    cases v with
    | fscalar s => cases s <;> simp_all [normalize_version, pyIntCoerce]
    | flist xs => simp_all [pyIntCoerce]

/-- C8 witness: the amended coercion evaluated at concrete inputs. -/
theorem normalize_version_amended_witness :
    normalize_version (.fscalar (.sstr "7")) = 7 ∧
    normalize_version (.flist []) = 1 :=
  ⟨normalize_version_amended.2.2 (.fscalar (.sstr "7")) 7 (by decide),
   normalize_version_amended.2.1 (.flist []) (by decide)⟩

/-- C3: the reference check resolves an id exactly when the id itself or
the id with `-spec` appended is an index key; every unresolved occurrence
in a references list produces exactly one error, and no error is produced
for resolved ones. -/
theorem validate_references_resolution (index : List (String × Document)) :
    validate_references index =
      index.flatMap (fun kd =>
        (kd.2.references.filter (fun r =>
          !(index.any (fun e => e.1 = r) ||
            index.any (fun e => e.1 = r ++ "-spec")))).map (refMsg kd.2)) ∧
    (∀ r, ref_exists r index =
      (index.any (fun e => e.1 = r) || index.any (fun e => e.1 = r ++ "-spec"))) ∧
    (validate_references index = [] ↔
      ∀ kd ∈ index, ∀ r ∈ kd.2.references, ref_exists r index = true) := by
  have hre : ∀ r, ref_exists r index =
      (index.any (fun e => e.1 = r) || index.any (fun e => e.1 = r ++ "-spec")) := by
    intro r
    unfold ref_exists containsKey
    rcases h1 : index.any (fun e => e.1 = r) <;>
      rcases h2 : index.any (fun e => e.1 = r ++ "-spec") <;> simp [h1, h2]
  have hfun : ∀ kd : String × Document,
      kd.2.references.filterMap (fun r =>
        if ref_exists r index then none else some (refMsg kd.2 r)) =
      (kd.2.references.filter (fun r =>
        !(index.any (fun e => e.1 = r) ||
          index.any (fun e => e.1 = r ++ "-spec")))).map (refMsg kd.2) := by
    intro kd
    rw [filterMap_keep_failing (fun r => ref_exists r index) (refMsg kd.2)]
    simp only [hre]
  refine ⟨?_, hre, ?_⟩
  · unfold validate_references
    simp only [hfun]
  · constructor
    · intro h kd hkd r hr
      by_contra hne
      have hmem : refMsg kd.2 r ∈ validate_references index := by
        unfold validate_references
        refine List.mem_flatMap.mpr ⟨kd, hkd, List.mem_filterMap.mpr ⟨r, hr, ?_⟩⟩
        simp [hne]
      rw [h] at hmem
      exact absurd hmem (List.not_mem_nil _)
    · intro h
      unfold validate_references
      rw [List.eq_nil_iff_forall_not_mem]
      intro msg hmsg
      rcases List.mem_flatMap.mp hmsg with ⟨kd, hkd, hin⟩
      rcases List.mem_filterMap.mp hin with ⟨r, hr, hgen⟩
      rw [h kd hkd r hr] at hgen
      simp at hgen

/-- C4: for a task directory whose spec is indexed with an absent or valid
complexity, the required set is exactly the claim's tier table (trivial,
normal, critical, with normal for an absent field), and each required file
absent from the directory yields exactly one error rendered by `reqMsg`,
naming the missing path and that tier; the top-level check concatenates the
per-task errors in task order. -/
theorem required_files_per_complexity (root : Root) (td : TaskDir)
    (index : List (String × Document)) (d : Document)
    (hlook : index.lookup (td.name ++ "-spec") = some d)
    (hcx : d.complexity = none ∨ d.complexity = some "trivial" ∨
      d.complexity = some "normal" ∨ d.complexity = some "critical") :
    requiredErrorsForTask td index =
      (claimRequiredSet d.complexity).filterMap (fun f =>
        if (td.files.lookup f).isSome then none
        else some (reqMsg td.name f (claimTier d.complexity))) ∧
    validate_required_files root index =
      (collect_task_dirs root).flatMap (fun t => requiredErrorsForTask t index) := by
  refine ⟨?_, rfl⟩
  unfold requiredErrorsForTask
  rw [hlook]
  rcases hcx with h | h | h | h <;>
    simp [h, claimTier, claimRequiredSet, required_files_for_complexity,
      TRIVIAL_FILES, NORMAL_FILES, CRITICAL_FILES]

/-- C10: an indexed task spec whose complexity is misspelled (outside the
enum) or empty is neither skipped nor fatal: the required-file check
applies the normal tier's set {spec.md, plan.md, implementation.md,
tests-review.md}; the enum violation itself is reported by the schema
check (whose error names the complexity enum), not by the required-file
errors (which only name missing files). -/
theorem invalid_complexity_normal_set (td : TaskDir)
    (index : List (String × Document)) (d : Document) (c s : String)
    (hlook : index.lookup (td.name ++ "-spec") = some d)
    (hcx : d.complexity = some c)
    (hbad : c ∉ ["trivial", "normal", "critical"] ∨ c = "")
    (hkind : d.kind = "spec") (hid : d.id ≠ "")
    (hst : d.status = some s) (hsv : s ∈ STATUS_VALUES) :
    requiredErrorsForTask td index =
      NORMAL_FILES.filterMap (fun f =>
        if (td.files.lookup f).isSome then none
        else some (reqMsg td.name f (if c = "" then "normal" else c))) ∧
    validate_document_schema d =
      some (pathStr d.path ++
        ": complexity must be one of [\x27critical\x27, \x27normal\x27, \x27trivial\x27]") := by
  have hcnt : (if c = "" then "normal" else c) ≠ "trivial" ∧
      (if c = "" then "normal" else c) ≠ "critical" := by
    rcases hbad with h | h
    · by_cases hce : c = ""
      · simp [hce]
      · rw [if_neg hce]
        simp only [List.mem_cons, List.not_mem_nil] at h
        push_neg at h
        exact ⟨h.1, h.2.2.1⟩
    · simp [h]
  have hcen : COMPLEXITY_VALUES.contains c = false := by
    rcases hbad with h | h
    · simp only [List.mem_cons, List.not_mem_nil] at h
      push_neg at h
      simp [COMPLEXITY_VALUES, h.1, h.2.1, h.2.2.1]
    · simp [h, COMPLEXITY_VALUES]
  constructor
  · unfold requiredErrorsForTask
    simp only [hlook, hcx]
    unfold required_files_for_complexity
    simp [hcnt.1, hcnt.2]
  · have h2 : c ∉ COMPLEXITY_VALUES := by
      simpa using hcen
    unfold validate_document_schema
    simp [hkind, hid, hst, hcx, hsv, h2]

/-- C7: the validate operation returns exactly the parse-error list with
`ok = false` (and the partial index) whenever indexing reported parse
errors, performing no schema, required-file or reference check; with no
parse errors, the three checks run and their errors are concatenated
schema first, then required files, then references, with `ok` true exactly
when that list is empty. -/
theorem run_validate_phases (yload : Yaml) (root : Root) :
    ((build_index yload root).2 ≠ [] →
      run_validate yload root =
        (false, (build_index yload root).2, (build_index yload root).1)) ∧
    ((build_index yload root).2 = [] →
      run_validate yload root =
        (((build_index yload root).1.filterMap (fun kd => validate_document_schema kd.2)
            ++ validate_required_files root (build_index yload root).1
            ++ validate_references (build_index yload root).1).isEmpty,
          (build_index yload root).1.filterMap (fun kd => validate_document_schema kd.2)
            ++ validate_required_files root (build_index yload root).1
            ++ validate_references (build_index yload root).1,
          (build_index yload root).1)) := by
  constructor
  · intro h
    have hne : (!(build_index yload root).2.isEmpty) = true := by
      simpa [List.isEmpty_iff] using h
    simp [run_validate, hne]
  · intro h
    simp [run_validate, h]

/-- C4 witness: the critical tier at a concrete task directory missing only
`review.md`. -/
theorem required_files_per_complexity_witness :
    exIdxCritical.lookup (exTdCritical.name ++ "-spec") = some exSpecDocCritical ∧
    exSpecDocCritical.complexity = some "critical" ∧
    requiredErrorsForTask exTdCritical exIdxCritical =
      (claimRequiredSet exSpecDocCritical.complexity).filterMap (fun f =>
        if (exTdCritical.files.lookup f).isSome then none
        else some (reqMsg exTdCritical.name f (claimTier exSpecDocCritical.complexity))) ∧
    requiredErrorsForTask exTdCritical exIdxCritical =
      ["tasks/t1/review.md: required file missing (complexity=critical)"] :=
  ⟨by decide, by decide,
   (required_files_per_complexity exRootCritical exTdCritical exIdxCritical
     exSpecDocCritical (by decide) (by decide)).1,
   by decide⟩

/-- C10 witness: a misspelled complexity `weird` at a concrete task
directory, checked against the normal set and flagged by the schema
check. -/
theorem invalid_complexity_normal_set_witness :
    exIdxWeird.lookup (exTdWeird.name ++ "-spec") = some exSpecDocWeird ∧
    exSpecDocWeird.complexity = some "weird" ∧
    requiredErrorsForTask exTdWeird exIdxWeird =
      NORMAL_FILES.filterMap (fun f =>
        if (exTdWeird.files.lookup f).isSome then none
        else some (reqMsg exTdWeird.name f (if "weird" = "" then "normal" else "weird"))) ∧
    validate_document_schema exSpecDocWeird =
      some (pathStr exSpecDocWeird.path ++
        ": complexity must be one of [\x27critical\x27, \x27normal\x27, \x27trivial\x27]") := by
  refine ⟨by decide, by decide, ?_, ?_⟩
  · exact (invalid_complexity_normal_set exTdWeird exIdxWeird exSpecDocWeird "weird" "active"
      (by decide) (by decide) (by decide) (by decide) (by decide) (by decide) (by decide)).1
  · exact (invalid_complexity_normal_set exTdWeird exIdxWeird exSpecDocWeird "weird" "active"
      (by decide) (by decide) (by decide) (by decide) (by decide) (by decide) (by decide)).2

/-- C7 witness: a root with a parse error short-circuits, a clean root runs
the three checks. -/
theorem run_validate_phases_witness :
    (build_index yamlSimple exRootBad).2 ≠ [] ∧
    run_validate yamlSimple exRootBad =
      (false, (build_index yamlSimple exRootBad).2, (build_index yamlSimple exRootBad).1) ∧
    (build_index yamlSimple exRootClean).2 = [] ∧
    run_validate yamlSimple exRootClean =
      (((build_index yamlSimple exRootClean).1.filterMap
            (fun kd => validate_document_schema kd.2)
          ++ validate_required_files exRootClean (build_index yamlSimple exRootClean).1
          ++ validate_references (build_index yamlSimple exRootClean).1).isEmpty,
        (build_index yamlSimple exRootClean).1.filterMap
            (fun kd => validate_document_schema kd.2)
          ++ validate_required_files exRootClean (build_index yamlSimple exRootClean).1
          ++ validate_references (build_index yamlSimple exRootClean).1,
        (build_index yamlSimple exRootClean).1) :=
  ⟨by decide, (run_validate_phases yamlSimple exRootBad).1 (by decide),
   by decide, (run_validate_phases yamlSimple exRootClean).2 (by decide)⟩

/-- Helper: index extensions compose. -/
theorem index_ext_trans {l1 l2 l3 : List (String × Document)}
    (h1 : ∃ t, l2 = l1 ++ t) (h2 : ∃ t, l3 = l2 ++ t) : ∃ t, l3 = l1 ++ t := by
  rcases h1 with ⟨t1, ht1⟩
  rcases h2 with ⟨t2, ht2⟩
  exact ⟨t1 ++ t2, by rw [ht2, ht1, List.append_assoc]⟩

/-- Helper: `tryInsert` only ever appends to the index. -/
theorem tryInsert_index_ext (st : IndexState) (p k : String) (d : Document)
    (lbl : String) : ∃ t, (tryInsert st p k d lbl).index = st.index ++ t := by
  unfold tryInsert
  by_cases h : containsKey st.index k = true
  · exact ⟨[], by simp [h]⟩
  · exact ⟨[(k, d)], by simp [h]⟩

/-- Helper: the rules loop only ever appends to the index. -/
theorem processRules_index_ext (yload : Yaml) (files : List (String × String))
    (st : IndexState) : ∃ t, (processRules yload files st).index = st.index ++ t := by
  induction files generalizing st with
  | nil => exact ⟨[], by simp [processRules]⟩
  | cons f rest ih =>
    rcases f with ⟨fname, content⟩
    unfold processRules
    cases hp : parse_document yload ["rules", fname] content with
    | ok doc =>
      exact index_ext_trans
        (tryInsert_index_ext st (pathStr ["rules", fname]) doc.id doc "duplicate id") (ih _)
    | error e => exact ih _

/-- Helper: the artifact loop only ever appends to the index. -/
theorem processArtifacts_index_ext (yload : Yaml) (td : TaskDir) (names : List String)
    (st : IndexState) : ∃ t, (processArtifacts yload td names st).index = st.index ++ t := by
  induction names generalizing st with
  | nil => exact ⟨[], by simp [processArtifacts]⟩
  | cons name rest ih =>
    unfold processArtifacts
    split
    · exact ih st
    · split
      · exact ih st
      · split
        · exact index_ext_trans (tryInsert_index_ext st _ _ _ _) (ih _)
        · exact ih _

/-- Helper: one task directory only ever appends to the index. -/
theorem processTaskDir_index_ext (yload : Yaml) (st : IndexState) (td : TaskDir) :
    ∃ t, (processTaskDir yload st td).index = st.index ++ t := by
  unfold processTaskDir
  dsimp only
  split
  · exact ⟨[], by simp⟩
  · split
    · split
      · exact tryInsert_index_ext st _ _ _ _
      · exact index_ext_trans (tryInsert_index_ext st _ _ _ _)
          (processArtifacts_index_ext yload td ARTIFACT_FILES _)
    · exact processArtifacts_index_ext yload td ARTIFACT_FILES _

/-- Helper: the task loop only ever appends to the index. -/
theorem processTasks_index_ext (yload : Yaml) (tds : List TaskDir) (st : IndexState) :
    ∃ t, (processTasks yload tds st).index = st.index ++ t := by
  induction tds generalizing st with
  | nil => exact ⟨[], by simp [processTasks]⟩
  | cons td rest ih =>
    unfold processTasks
    exact index_ext_trans (processTaskDir_index_ext yload st td) (ih _)

/-- Helper: an existing binding survives appending to an association
list. -/
theorem lookup_append_left_doc (l t : List (String × Document)) (k : String)
    (d : Document) (h : l.lookup k = some d) : (l ++ t).lookup k = some d := by
  induction l with
  | nil => simp [List.lookup] at h
  | cons a l ih =>
    rcases a with ⟨k1, d1⟩
    rw [List.cons_append]
    simp only [List.lookup] at h ⊢
    cases hk : (k == k1) with
    | true => simpa [hk] using h
    | false =>
      rw [hk] at h
      simpa [hk] using ih h

/-- C5: duplicate keys never abort indexing — the shared insertion step
retains the first-indexed document for a key and appends exactly one error
naming the offending path and key for each later occurrence, a fresh key
is simply appended, and a key-to-document binding present at any point of
the build survives all later processing, so the final `build_index` still
maps it to the first document. -/
theorem build_index_first_wins (yload : Yaml) (root : Root) (st : IndexState)
    (p k lbl : String) (doc d : Document) :
    (containsKey st.index k = true →
      tryInsert st p k doc lbl =
        ⟨st.index, st.errors ++ [p ++ ": " ++ lbl ++ " " ++ k]⟩) ∧
    (containsKey st.index k = false →
      tryInsert st p k doc lbl = ⟨st.index ++ [(k, doc)], st.errors⟩) ∧
    (st.index.lookup k = some d →
      (processTasks yload (collect_task_dirs root)
        (processRules yload (collect_rules root) st)).index.lookup k = some d) ∧
    build_index yload root =
      ((processTasks yload (collect_task_dirs root)
          (processRules yload (collect_rules root) ⟨[], []⟩)).index,
        (processTasks yload (collect_task_dirs root)
          (processRules yload (collect_rules root) ⟨[], []⟩)).errors) := by
  refine ⟨?_, ?_, ?_, rfl⟩
  · intro h
    unfold tryInsert
    rw [if_pos h]
  · intro h
    unfold tryInsert
    rw [if_neg (by simp [h])]
  · intro h
    rcases processRules_index_ext yload (collect_rules root) st with ⟨t1, ht1⟩
    rcases processTasks_index_ext yload (collect_task_dirs root)
      (processRules yload (collect_rules root) st) with ⟨t2, ht2⟩
    rw [ht2, ht1, List.append_assoc]
    exact lookup_append_left_doc _ _ _ _ h

/-- C5 witness: the duplicate-id scenario of two rule files sharing `r1` —
the step reports one error naming path and key, the index retains the
first-seen document, and retention holds through a full build. -/
theorem build_index_first_wins_witness :
    containsKey [("r1", exDocR1)] "r1" = true ∧
    tryInsert ⟨[("r1", exDocR1)], []⟩ "rules/b.md" "r1" exDocR1Dup "duplicate id" =
      ⟨[("r1", exDocR1)], ["rules/b.md: duplicate id r1"]⟩ ∧
    ([("r1", exDocR1)] : List (String × Document)).lookup "r1" = some exDocR1 ∧
    (processTasks yamlSimple (collect_task_dirs exRootDup)
      (processRules yamlSimple (collect_rules exRootDup)
        ⟨[("r1", exDocR1)], []⟩)).index.lookup "r1" = some exDocR1 ∧
    build_index yamlSimple exRootDup =
      ([("r1", exDocR1)], ["rules/b.md: duplicate id r1"]) := by
  refine ⟨by decide, ?_, by decide, ?_, by decide⟩
  · exact ((build_index_first_wins yamlSimple exRootDup ⟨[("r1", exDocR1)], []⟩
      "rules/b.md" "r1" "duplicate id" exDocR1Dup exDocR1).1 (by decide)).trans (by decide)
  · exact (build_index_first_wins yamlSimple exRootDup ⟨[("r1", exDocR1)], []⟩
      "rules/b.md" "r1" "duplicate id" exDocR1Dup exDocR1).2.2.1 (by decide)

/-- C1: evaluation of the aggregate stream at the failing input — a task
directory named `a-spec-b` with an active spec and a plan artifact. The
code derives each task id by removing the first occurrence of `-spec` from
the spec's key (`a-spec-b-spec` gives `a-b-spec`, not the directory name
`a-spec-b`), so the plan artifact is dropped from the hashed stream, while
the claim (and the source's own comment, `TASK-123-spec -> TASK-123`)
includes the artifacts of every task whose spec is active, here in
ascending key order `a-spec-b-plan`, `a-spec-b-spec`. -/
theorem aggregated_checksum_infix_spec_divergence :
    aggregatedStream exRootAgg (build_index yamlSimple exRootAgg).1 "active" =
      normalized_content_for_checksum exSpecContent ∧
    claimAggregatedStream exRootAgg (build_index yamlSimple exRootAgg).1 =
      normalized_content_for_checksum exPlanContent ++
        normalized_content_for_checksum exSpecContent ∧
    aggregatedStream exRootAgg (build_index yamlSimple exRootAgg).1 "active" ≠
      claimAggregatedStream exRootAgg (build_index yamlSimple exRootAgg).1 ∧
    aggregated_checksum exRootAgg (build_index yamlSimple exRootAgg).1 "active" =
      "sha256:" ++ bytesToHex (sha256
        (aggregatedStream exRootAgg (build_index yamlSimple exRootAgg).1 "active")) :=
  ⟨by decide, by decide, by decide, rfl⟩

/-- Helper: the falsy-source guard yields `some` exactly for a nonempty
declared source. -/
theorem entrySrc_eq_some {e : AdapterEntry} {src : String}
    (h : entrySrc e = some src) : e.source = some src ∧ src ≠ "" := by
  unfold entrySrc at h
  cases ho : e.source with
  | none => rw [ho] at h; simp at h
  | some s0 =>
    rw [ho] at h
    by_cases hs : s0 = ""
    · simp [hs] at h
    · simp [hs] at h
      subst h
      exact ⟨rfl, hs⟩

/-- Helper: the source recorded in a payload entry. -/
theorem mkPayloadDoc_source (rootPath : String) (fs : List (String × String))
    (e : AdapterEntry) (src target : String) (indexed : Option Document) :
    (mkPayloadDoc rootPath fs e src target indexed).source = src := by
  cases indexed <;> rfl

/-- Helper: the target recorded in a payload entry. -/
theorem mkPayloadDoc_target (rootPath : String) (fs : List (String × String))
    (e : AdapterEntry) (src target : String) (indexed : Option Document) :
    (mkPayloadDoc rootPath fs e src target indexed).target = target := by
  cases indexed <;> rfl

/-- Helper: `buildPayloadDocs` fails whenever some declared entry names a
nonexistent source. -/
theorem buildPayloadDocs_error_of_missing (rootPath : String)
    (fs : List (String × String)) (index : List (String × Document))
    (an : String) (entries : List AdapterEntry)
    (h : ∃ e ∈ entries, ∃ s, e.source = some s ∧ s ≠ "" ∧
      isFile fs (resolveUnder rootPath s) = false) :
    ∃ msg, buildPayloadDocs rootPath fs index an entries = .error msg := by
  induction entries with
  | nil =>
    rcases h with ⟨e, he, _⟩
    exact absurd he (List.not_mem_nil _)
  | cons e0 rest ih =>
    rcases h with ⟨e, he, s, hsrc, hne, hmiss⟩
    rcases List.mem_cons.mp he with rfl | hmem
    · have hes : entrySrc e = some s := by
        unfold entrySrc
        rw [hsrc]
        simp [hne]
      unfold buildPayloadDocs
      simp only [hes]
      rw [hmiss]
      exact ⟨_, rfl⟩
    · cases hes : entrySrc e0 with
      | none =>
        unfold buildPayloadDocs
        simp only [hes]
        exact ⟨_, rfl⟩
      | some src =>
        unfold buildPayloadDocs
        simp only [hes]
        cases hf : isFile fs (resolveUnder rootPath src) with
        | false => exact ⟨_, rfl⟩
        | true =>
          rcases ih ⟨e, hmem, s, hsrc, hne, hmiss⟩ with ⟨msg, hmsg⟩
          rw [hmsg]
          exact ⟨msg, rfl⟩

/-- Helper: on success every declared entry's source is a nonempty path
naming an existing file, and the produced payload carries its copy target. -/
theorem buildPayloadDocs_ok_covers (rootPath : String)
    (fs : List (String × String)) (index : List (String × Document))
    (an : String) (entries : List AdapterEntry) (ds : List PayloadDoc)
    (h : buildPayloadDocs rootPath fs index an entries = .ok ds) :
    ∀ e ∈ entries, ∃ s, e.source = some s ∧ s ≠ "" ∧
      isFile fs (resolveUnder rootPath s) = true ∧
      ∃ d ∈ ds, d.source = s ∧ d.target = e.target.getD s := by
  induction entries generalizing ds with
  | nil => intro e he; exact absurd he (List.not_mem_nil _)
  | cons e0 rest ih =>
    intro e he
    cases hes : entrySrc e0 with
    | none =>
      unfold buildPayloadDocs at h
      simp only [hes] at h
      exact absurd h (by simp)
    | some src =>
      unfold buildPayloadDocs at h
      simp only [hes] at h
      cases hf : isFile fs (resolveUnder rootPath src) with
      | false =>
        rw [hf] at h
        simp at h
      | true =>
        rw [hf] at h
        rw [if_neg (by simp)] at h
        cases hrest : buildPayloadDocs rootPath fs index an rest with
        | error er => rw [hrest] at h; exact absurd h (by simp)
        | ok ds' =>
          rw [hrest] at h
          have hds := (Except.ok.inj h).symm
          rcases List.mem_cons.mp he with rfl | hmem
          · rcases entrySrc_eq_some hes with ⟨hs0, hne⟩
            refine ⟨src, hs0, hne, hf, ?_⟩
            refine ⟨mkPayloadDoc rootPath fs e src (e.target.getD src)
                (entryIndexed rootPath index e (resolveUnder rootPath src)), ?_,
              mkPayloadDoc_source _ _ _ _ _ _, mkPayloadDoc_target _ _ _ _ _ _⟩
            rw [hds]
            exact List.mem_cons_self _ _
          · rcases ih ds' hrest e hmem with ⟨s, hs, hne, hfe, d, hd, hsd, htd⟩
            exact ⟨s, hs, hne, hfe, d,
              by rw [hds]; exact List.mem_cons_of_mem _ hd, hsd, htd⟩

/-- C9: export is all-or-nothing — when some declared document's source
path does not exist on disk as a file, `run_export` fails before
performing any write under the output directory (its write list is never
produced); when it succeeds, every declared document's copy, from its
validated source to `output_dir/target`, is among the writes. -/
theorem run_export_all_or_nothing (spec : AdapterSpec) (rootPath : String)
    (fs : List (String × String)) (index : List (String × Document)) (an : String) :
    ((∃ e ∈ spec.documents, ∃ s, e.source = some s ∧ s ≠ "" ∧
        isFile fs (resolveUnder rootPath s) = false) →
      ∃ msg, run_export spec rootPath fs index an = .error msg) ∧
    (∀ ws, run_export spec rootPath fs index an = .ok ws →
      ∀ e ∈ spec.documents, ∃ s, e.source = some s ∧
        isFile fs (resolveUnder rootPath s) = true ∧
        (outBase rootPath spec.output_dir ++ "/" ++ (e.target.getD s),
          (fs.lookup (resolveUnder rootPath s)).getD "") ∈ ws) := by
  constructor
  · intro h
    rcases buildPayloadDocs_error_of_missing rootPath fs index an spec.documents h with
      ⟨msg, hmsg⟩
    unfold run_export build_payload
    rw [hmsg]
    exact ⟨msg, rfl⟩
  · intro ws hok e he
    unfold run_export build_payload at hok
    cases hbp : buildPayloadDocs rootPath fs index an spec.documents with
    | error er => rw [hbp] at hok; exact absurd hok (by simp)
    | ok ds =>
      rw [hbp] at hok
      have hws := (Except.ok.inj hok).symm
      rcases buildPayloadDocs_ok_covers rootPath fs index an spec.documents ds hbp e he
        with ⟨s, hs, hne, hf, d, hd, hsd, htd⟩
      refine ⟨s, hs, hf, ?_⟩
      rw [hws]
      refine List.mem_append_left _ (List.mem_map.mpr ⟨d, hd, ?_⟩)
      rw [hsd, htd]

/-- C9 witness: a declaration naming the missing `gone.md` aborts with no
writes, while the one-document declaration copies its file and writes
`context.json`. -/
theorem run_export_all_or_nothing_witness :
    (∃ e ∈ exSpecMissing.documents, ∃ s, e.source = some s ∧ s ≠ "" ∧
      isFile exFsOk (resolveUnder "/r" s) = false) ∧
    (∃ msg, run_export exSpecMissing "/r" exFsOk [] "cursor" = .error msg) ∧
    run_export exSpecOk "/r" exFsOk [] "cursor" =
      .ok [("/r/out/doc.md", "content"),
           ("/r/out/context.json", renderContextJson "out"
             [{ id := "", kind := "", source := "doc.md", target := "doc.md",
                version := 1, status := none, complexity := none,
                checksum := none, tags := [] }])] ∧
    (∃ s, ({ source := some "doc.md" } : AdapterEntry).source = some s ∧
      isFile exFsOk (resolveUnder "/r" s) = true ∧
      (outBase "/r" exSpecOk.output_dir ++ "/" ++
          (({ source := some "doc.md" } : AdapterEntry).target.getD s),
        (exFsOk.lookup (resolveUnder "/r" s)).getD "") ∈
        [("/r/out/doc.md", "content"),
         ("/r/out/context.json", renderContextJson "out"
           [{ id := "", kind := "", source := "doc.md", target := "doc.md",
              version := 1, status := none, complexity := none,
              checksum := none, tags := [] }])]) := by
  have hmiss : ∃ e ∈ exSpecMissing.documents, ∃ s, e.source = some s ∧ s ≠ "" ∧
      isFile exFsOk (resolveUnder "/r" s) = false :=
    ⟨{ source := some "gone.md" }, by decide, "gone.md", rfl, by decide, by decide⟩
  refine ⟨hmiss, (run_export_all_or_nothing exSpecMissing "/r" exFsOk [] "cursor").1 hmiss,
    rfl, ?_⟩
  exact (run_export_all_or_nothing exSpecOk "/r" exFsOk [] "cursor").2 _ rfl
    { source := some "doc.md" } (by decide)

/-- C6 counterexample: content with leading whitespace before the opening
delimiter does not begin with `---`, yet parses successfully — the source
strips the content before checking, so the claim's "fails exactly when the
content does not begin with the delimiter" is false as stated. -/
theorem parse_document_leading_ws_counterexample :
    (parse_document yamlSimple ["rules", "r.md"] exLeadingWS).isOk = true ∧
    startsWithL exLeadingWS.data "---".data = false := by
  decide

/-- C6 (amended): parsing a file's content is a pure function of its input
that fails with a format error exactly when one of these holds: the
content, after stripping surrounding whitespace, does not begin with
`---`; no matching closing delimiter is found; the YAML library rejects
the delimited block or yields a non-mapping; or the parsed mapping's `id`
or `kind` is missing or falsy. In all other cases it returns a Document. -/
theorem parse_document_failure_condition (yload : Yaml) (path : List String)
    (content : String) :
    (∃ e, parse_document yload path content = .error e) ↔
      (startsWithL (fmStripped content) "---".data = false ∨
       fmClosingIdx content = none ∨
       (∃ i, fmClosingIdx content = some i ∧
         yamlNotMapping (yload (fmBlockStr content i)) = true) ∨
       (∃ i, fmClosingIdx content = some i ∧
         yamlNotMapping (yload (fmBlockStr content i)) = false ∧
         (pyTruthy (dictGet (yamlMapOf (yload (fmBlockStr content i))) "id") = false ∨
          pyTruthy (dictGet (yamlMapOf (yload (fmBlockStr content i))) "kind") = false))) := by
  unfold parse_document parse_frontmatter
  by_cases hA : startsWithL (fmStripped content) "---".data = true
  case neg =>
    have hA' : startsWithL (fmStripped content) "---".data = false :=
      Bool.not_eq_true _ ▸ Bool.eq_false_iff.mpr hA
    rw [if_pos (by simp [hA'])]
    simp [hA']
  case pos =>
    rw [if_neg (by simp [hA])]
    cases hI : fmClosingIdx content with
    | none => simp [hA, hI]
    | some i =>
      cases hY : yload (fmBlockStr content i) with
      | error e => simp [hA, hI, hY, yamlNotMapping]
      | ok v =>
        cases v with
        | yscalar sc =>
          cases sc with
          | snone => simp [hA, hI, hY, yamlNotMapping, yamlMapOf, dictGet, pyTruthy]
          | sbool b => simp [hA, hI, hY, yamlNotMapping]
          | sint n => simp [hA, hI, hY, yamlNotMapping]
          | sstr s => simp [hA, hI, hY, yamlNotMapping]
        | ylist xs => simp [hA, hI, hY, yamlNotMapping]
        | ydict fm =>
          by_cases hid : pyTruthy (dictGet fm "id") = true
          · by_cases hk : pyTruthy (dictGet fm "kind") = true
            · simp [hA, hI, hY, yamlNotMapping, yamlMapOf, hid, hk]
            · have hk' : pyTruthy (dictGet fm "kind") = false :=
                Bool.eq_false_iff.mpr hk
              simp [hA, hI, hY, yamlNotMapping, yamlMapOf, hid, hk']
          · have hid' : pyTruthy (dictGet fm "id") = false :=
              Bool.eq_false_iff.mpr hid
            simp [hA, hI, hY, yamlNotMapping, yamlMapOf, hid']

/-- Helper: the two-cons equation of `replaceCRLF`. -/
theorem replaceCRLF_cons2 (c d : Char) (r : List Char) :
    replaceCRLF (c :: d :: r) =
      if c = '\r' && d = '\n' then '\n' :: replaceCRLF r
      else c :: replaceCRLF (d :: r) := rfl

/-- Helper: a head other than `\r` passes through `replaceCRLF`. -/
theorem replaceCRLF_cons_not_cr {c : Char} (h : c ≠ '\r') (l : List Char) :
    replaceCRLF (c :: l) = c :: replaceCRLF l := by
  cases l with
  | nil => rfl
  | cons d r => simp [replaceCRLF_cons2, h]

/-- Helper: a head other than `\r` passes through the EOL normalization. -/
theorem eolNorm_cons_not_cr {c : Char} (h : c ≠ '\r') (l : List Char) :
    eolNorm (c :: l) = c :: eolNorm l := by
  unfold eolNorm replaceCR
  rw [replaceCRLF_cons_not_cr h, List.map_cons, if_neg h]

/-- Helper: a `\r\n` pair normalizes to one `\n`. -/
theorem eolNorm_crlf (r : List Char) :
    eolNorm ('\r' :: '\n' :: r) = '\n' :: eolNorm r := by
  unfold eolNorm replaceCR
  rw [replaceCRLF_cons2]
  simp

/-- Helper: a final lone `\r` normalizes to `\n`. -/
theorem eolNorm_cr_nil : eolNorm ['\r'] = ['\n'] := rfl

/-- Helper: a lone `\r` (not followed by `\n`) normalizes to `\n`. -/
theorem eolNorm_cr_cons {d : Char} (h : d ≠ '\n') (r : List Char) :
    eolNorm ('\r' :: d :: r) = '\n' :: eolNorm (d :: r) := by
  unfold eolNorm replaceCR
  rw [replaceCRLF_cons2, if_neg (by simp [h]), List.map_cons, if_pos rfl]

/-- Helper: `joinLF` distributes over a nonempty cons of segments. -/
theorem joinLF_cons2 (s s2 : List Char) (ss : List (List Char)) :
    joinLF (s :: s2 :: ss) = s ++ '\n' :: joinLF (s2 :: ss) := rfl

/-- Helper: a character prepended to the first segment passes to the
join. -/
theorem joinLF_cons_head (c : Char) (s : List Char) (ss : List (List Char)) :
    joinLF ((c :: s) :: ss) = c :: joinLF (s :: ss) := by
  cases ss with
  | nil => rfl
  | cons s2 ss2 => simp [joinLF_cons2]

/-- Helper: `splitEOL` never returns the empty list of segments. -/
theorem splitEOL_ne_nil : ∀ l : List Char, splitEOL l ≠ []
  | [] => by simp [splitEOL]
  | [c] => by
    unfold splitEOL
    split <;> simp
  | c :: d :: rest => by
    unfold splitEOL
    split
    · simp
    · split
      · simp
      · cases hs : splitEOL (d :: rest) with
        | nil => exact absurd hs (splitEOL_ne_nil (d :: rest))
        | cons s ss => simp [hs]

/-- Helper: joining the segments of `splitEOL` with `\n` is exactly the
EOL normalization — so two contents with equal `splitEOL` normalize
identically. -/
theorem joinLF_splitEOL : ∀ l : List Char, joinLF (splitEOL l) = eolNorm l
  | [] => rfl
  | [c] => by
    unfold splitEOL
    by_cases h : (c = '\r' || c = '\n') = true
    · rw [if_pos h]
      rcases (Bool.or_eq_true _ _).mp h with hc | hc
      · rw [show c = '\r' by simpa using hc]
        rfl
      · rw [show c = '\n' by simpa using hc]
        rfl
    · rw [if_neg h]
      have hc : c ≠ '\r' := by
        intro hc
        exact h (by simp [hc])
      show [c] = eolNorm [c]
      rw [eolNorm_cons_not_cr hc]
      rfl
  | c :: d :: rest => by
    unfold splitEOL
    by_cases h1 : (c = '\r' && d = '\n') = true
    · rw [if_pos h1]
      obtain ⟨hc, hd⟩ : c = '\r' ∧ d = '\n' := by simpa using h1
      subst hc
      subst hd
      cases hs : splitEOL rest with
      | nil => exact absurd hs (splitEOL_ne_nil rest)
      | cons s ss =>
        rw [eolNorm_crlf, ← joinLF_splitEOL rest, hs]
        rfl
    · rw [if_neg h1]
      by_cases h2 : (c = '\r' || c = '\n') = true
      · rw [if_pos h2]
        cases hs : splitEOL (d :: rest) with
        | nil => exact absurd hs (splitEOL_ne_nil _)
        | cons s ss =>
          rcases (Bool.or_eq_true _ _).mp h2 with hc | hc
          · have hc' : c = '\r' := by simpa using hc
            subst hc'
            have hd : d ≠ '\n' := by
              intro hd
              subst hd
              simp at h1
            rw [eolNorm_cr_cons hd, ← joinLF_splitEOL (d :: rest), hs]
            rfl
          · have hc' : c = '\n' := by simpa using hc
            subst hc'
            rw [eolNorm_cons_not_cr (by decide), ← joinLF_splitEOL (d :: rest), hs]
            rfl
      · rw [if_neg h2]
        have hc : c ≠ '\r' := by
          intro hc
          exact h2 (by simp [hc])
        cases hs : splitEOL (d :: rest) with
        | nil => exact absurd hs (splitEOL_ne_nil _)
        | cons s ss =>
          rw [eolNorm_cons_not_cr hc, ← joinLF_splitEOL (d :: rest), hs,
            joinLF_cons_head]

/-- Helper: equal segment lists give equal EOL normalizations. -/
theorem eolNorm_eq_of_splitEOL_eq {m m' : List Char}
    (h : splitEOL m = splitEOL m') : eolNorm m = eolNorm m' := by
  rw [← joinLF_splitEOL m, ← joinLF_splitEOL m', h]

/-- Helper: every character of `replaceCRLF l` comes from `l` or is the
substituted `\n`. -/
theorem mem_replaceCRLF : ∀ (l : List Char) (ch : Char),
    ch ∈ replaceCRLF l → ch ∈ l ∨ ch = '\n'
  | [], ch, h => by simp [replaceCRLF] at h
  | [c], ch, h => by
    simp [replaceCRLF] at h
    simp [h]
  | c :: d :: r, ch, h => by
    rw [replaceCRLF_cons2] at h
    by_cases hc : (c = '\r' && d = '\n') = true
    · rw [if_pos hc] at h
      rcases List.mem_cons.mp h with rfl | h2
      · exact Or.inr rfl
      · rcases mem_replaceCRLF r ch h2 with h3 | h3
        · exact Or.inl (by simp [h3])
        · exact Or.inr h3
    · rw [if_neg hc] at h
      rcases List.mem_cons.mp h with rfl | h2
      · exact Or.inl (by simp)
      · rcases mem_replaceCRLF (d :: r) ch h2 with h3 | h3
        · exact Or.inl (List.mem_cons_of_mem _ h3)
        · exact Or.inr h3

/-- Helper: the EOL normalization of all-whitespace content is all
whitespace. -/
theorem eolNorm_all_ws {w : List Char} (hw : ∀ ch ∈ w, isPySpace ch = true) :
    ∀ ch ∈ eolNorm w, isPySpace ch = true := by
  intro ch hch
  unfold eolNorm replaceCR at hch
  rcases List.mem_map.mp hch with ⟨c, hc, rfl⟩
  rcases mem_replaceCRLF w c hc with h | h
  · by_cases hcr : c = '\r'
    · simp [hcr, isPySpace]
    · simpa [hcr] using hw c h
  · subst h
    simp [isPySpace]

/-- Helper: the cons equation of `dropLeadWhile`. -/
theorem dropLead_cons (p : Char → Bool) (c : Char) (l : List Char) :
    dropLeadWhile p (c :: l) = if p c then dropLeadWhile p l else c :: l := rfl

/-- Helper: the cons equation of `dropTrailWhile`. -/
theorem dropTrail_cons (p : Char → Bool) (c : Char) (l : List Char) :
    dropTrailWhile p (c :: l) =
      if (dropTrailWhile p l).isEmpty then (if p c then [] else [c])
      else c :: dropTrailWhile p l := rfl

/-- Helper: trailing stripping empties a list exactly when everything
satisfies the predicate. -/
theorem dropTrail_eq_nil_iff (p : Char → Bool) :
    ∀ l : List Char, dropTrailWhile p l = [] ↔ ∀ c ∈ l, p c = true := by
  intro l
  induction l with
  | nil => simp [dropTrailWhile]
  | cons c r ih =>
    rw [dropTrail_cons]
    by_cases hr : dropTrailWhile p r = []
    · have h1 : (dropTrailWhile p r).isEmpty = true := by simp [hr]
      rw [if_pos h1]
      by_cases hc : p c = true
      · rw [if_pos hc]
        constructor
        · intro _ a ha
          rcases List.mem_cons.mp ha with rfl | ha'
          · exact hc
          · exact ih.mp hr a ha'
        · intro _
          rfl
      · rw [if_neg hc]
        constructor
        · intro h
          exact absurd h (by simp)
        · intro h
          exact absurd (h c (by simp)) hc
    · have h1 : ¬(dropTrailWhile p r).isEmpty = true := by
        simp [List.isEmpty_iff, hr]
      rw [if_neg h1]
      constructor
      · intro h
        exact absurd h (by simp)
      · intro h
        exact absurd (ih.mpr (fun a ha => h a (List.mem_cons_of_mem _ ha))) hr

/-- Helper: leading stripping returns a suffix, memberwise. -/
theorem mem_dropLead (p : Char → Bool) :
    ∀ (l : List Char) (c : Char), c ∈ dropLeadWhile p l → c ∈ l := by
  intro l
  induction l with
  | nil => intro c h; simpa [dropLeadWhile] using h
  | cons a r ih =>
    intro c h
    rw [dropLead_cons] at h
    by_cases ha : p a = true
    · rw [if_pos ha] at h
      exact List.mem_cons_of_mem _ (ih c h)
    · rw [if_neg ha] at h
      exact h

/-- Helper: leading and trailing stripping commute. -/
theorem dropLead_dropTrail_comm (p : Char → Bool) :
    ∀ l : List Char,
      dropLeadWhile p (dropTrailWhile p l) = dropTrailWhile p (dropLeadWhile p l) := by
  intro l
  induction l with
  | nil => rfl
  | cons c r ih =>
    rw [dropTrail_cons, dropLead_cons]
    by_cases hc : p c = true
    · rw [if_pos hc]
      by_cases hr : dropTrailWhile p r = []
      · have h1 : (dropTrailWhile p r).isEmpty = true := by simp [hr]
        rw [if_pos h1]
        have hall : ∀ a ∈ r, p a = true := (dropTrail_eq_nil_iff p r).mp hr
        have h2 : dropTrailWhile p (dropLeadWhile p r) = [] :=
          (dropTrail_eq_nil_iff p _).mpr (fun a ha => hall a (mem_dropLead p r a ha))
        rw [if_pos hc]
        simp [dropLeadWhile, h2]
      · have h1 : ¬(dropTrailWhile p r).isEmpty = true := by
          simp [List.isEmpty_iff, hr]
        rw [if_neg h1]
        rw [dropLead_cons p c (dropTrailWhile p r), if_pos hc]
        rw [if_pos hc]
        exact ih
    · have hc' : ¬p c = true := hc
      by_cases hr : dropTrailWhile p r = []
      · have h1 : (dropTrailWhile p r).isEmpty = true := by simp [hr]
        rw [if_pos h1, if_neg hc']
        rw [dropLead_cons p c ([] : List Char), if_neg hc']
        rw [if_neg hc']
        rw [dropTrail_cons p c r, if_pos h1, if_neg hc']
      · have h1 : ¬(dropTrailWhile p r).isEmpty = true := by
          simp [List.isEmpty_iff, hr]
        rw [if_neg h1]
        rw [dropLead_cons p c (dropTrailWhile p r), if_neg hc']
        rw [if_neg hc']
        rw [dropTrail_cons p c r, if_neg h1]

/-- Helper: equal trailing strips are preserved under a common head. -/
theorem dropTrail_congr (p : Char → Bool) (c : Char) {x y : List Char}
    (h : dropTrailWhile p x = dropTrailWhile p y) :
    dropTrailWhile p (c :: x) = dropTrailWhile p (c :: y) := by
  rw [dropTrail_cons, dropTrail_cons, h]

/-- Helper: all-whitespace leading content does not affect the left strip
of the normalization. -/
theorem stripLead_eolNorm_ws : ∀ (w : List Char),
    (∀ ch ∈ w, isPySpace ch = true) → ∀ t : List Char,
    dropLeadWhile isPySpace (eolNorm (w ++ t)) =
      dropLeadWhile isPySpace (eolNorm t)
  | [], _, t => by simp
  | [c], hw, t => by
    have hcw : isPySpace c = true := hw c (by simp)
    cases t with
    | nil =>
      by_cases hc : c = '\r'
      · subst hc
        rfl
      · rw [List.append_nil, eolNorm_cons_not_cr hc]
        show dropLeadWhile isPySpace [c] = dropLeadWhile isPySpace (eolNorm [])
        simp [dropLead_cons, hcw, dropLeadWhile, eolNorm, replaceCRLF, replaceCR]
    | cons u t' =>
      by_cases hc : c = '\r'
      · subst hc
        by_cases hu : u = '\n'
        · subst hu
          rw [show (['\r'] ++ '\n' :: t') = '\r' :: '\n' :: t' from rfl, eolNorm_crlf,
            eolNorm_cons_not_cr (show ('\n' : Char) ≠ '\r' by decide)]
        · rw [show (['\r'] ++ u :: t') = '\r' :: u :: t' from rfl, eolNorm_cr_cons hu]
          simp [dropLead_cons, isPySpace]
      · rw [show ([c] ++ u :: t') = c :: u :: t' from rfl, eolNorm_cons_not_cr hc]
        simp [dropLead_cons, hcw]
  | a :: b :: w', hw, t => by
    have hw' : ∀ ch ∈ b :: w', isPySpace ch = true :=
      fun ch hch => hw ch (List.mem_cons_of_mem _ hch)
    by_cases ha : a = '\r'
    · subst ha
      by_cases hb : b = '\n'
      · subst hb
        rw [show (('\r' :: '\n' :: w') ++ t) = '\r' :: '\n' :: (w' ++ t) from rfl,
          eolNorm_crlf, dropLead_cons, if_pos (by simp [isPySpace])]
        exact stripLead_eolNorm_ws w' (fun ch hch => hw' ch (List.mem_cons_of_mem _ hch)) t
      · rw [show (('\r' :: b :: w') ++ t) = '\r' :: b :: (w' ++ t) from rfl,
          eolNorm_cr_cons hb, dropLead_cons, if_pos (by simp [isPySpace])]
        exact stripLead_eolNorm_ws (b :: w') hw' t
    · rw [show ((a :: b :: w') ++ t) = a :: ((b :: w') ++ t) from rfl,
        eolNorm_cons_not_cr ha, dropLead_cons, if_pos (hw a (by simp))]
      exact stripLead_eolNorm_ws (b :: w') hw' t

/-- Helper: all-whitespace trailing content does not affect the right
strip of the normalization. -/
theorem stripTrail_eolNorm_ws : ∀ (t w : List Char),
    (∀ ch ∈ w, isPySpace ch = true) →
    dropTrailWhile isPySpace (eolNorm (t ++ w)) =
      dropTrailWhile isPySpace (eolNorm t)
  | [], w, hw => by
    rw [List.nil_append]
    rw [(dropTrail_eq_nil_iff isPySpace _).mpr (eolNorm_all_ws hw)]
    rfl
  | [c], w, hw => by
    by_cases hc : c = '\r'
    · subst hc
      cases w with
      | nil => rfl
      | cons u w2 =>
        have hw2 : ∀ ch ∈ w2, isPySpace ch = true :=
          fun ch hch => hw ch (List.mem_cons_of_mem _ hch)
        by_cases hu : u = '\n'
        · subst hu
          rw [show (['\r'] ++ '\n' :: w2) = '\r' :: '\n' :: w2 from rfl, eolNorm_crlf]
          rw [dropTrail_cons,
            if_pos (by simp [List.isEmpty_iff,
              (dropTrail_eq_nil_iff isPySpace _).mpr (eolNorm_all_ws hw2)]),
            if_pos (by simp [isPySpace])]
          rfl
        · rw [show (['\r'] ++ u :: w2) = '\r' :: u :: w2 from rfl, eolNorm_cr_cons hu]
          rw [dropTrail_cons,
            if_pos (by simp [List.isEmpty_iff,
              (dropTrail_eq_nil_iff isPySpace _).mpr (eolNorm_all_ws hw)]),
            if_pos (by simp [isPySpace])]
          rfl
    · cases w with
      | nil => rfl
      | cons u w2 =>
        rw [show ([c] ++ u :: w2) = c :: u :: w2 from rfl, eolNorm_cons_not_cr hc]
        have hX : dropTrailWhile isPySpace (eolNorm (u :: w2)) = [] :=
          (dropTrail_eq_nil_iff isPySpace _).mpr (eolNorm_all_ws hw)
        rw [dropTrail_cons, if_pos (by simp [hX])]
        rw [show eolNorm [c] = [c] from by rw [eolNorm_cons_not_cr hc]; rfl]
        rfl
  | a :: b :: t', w, hw => by
    by_cases ha : a = '\r'
    · subst ha
      by_cases hb : b = '\n'
      · subst hb
        rw [show (('\r' :: '\n' :: t') ++ w) = '\r' :: '\n' :: (t' ++ w) from rfl,
          eolNorm_crlf, eolNorm_crlf]
        exact dropTrail_congr isPySpace '\n' (stripTrail_eolNorm_ws t' w hw)
      · rw [show (('\r' :: b :: t') ++ w) = '\r' :: b :: (t' ++ w) from rfl,
          eolNorm_cr_cons hb, eolNorm_cr_cons hb]
        have := dropTrail_congr isPySpace '\n' (stripTrail_eolNorm_ws (b :: t') w hw)
        simpa using this
    · rw [show ((a :: b :: t') ++ w) = a :: ((b :: t') ++ w) from rfl,
        eolNorm_cons_not_cr ha, eolNorm_cons_not_cr ha]
      exact dropTrail_congr isPySpace a (stripTrail_eolNorm_ws (b :: t') w hw)

/-- Helper: the checksum normalization, phrased through `eolNorm` and the
two one-sided strips. -/
theorem normChars_eq (cs : List Char) :
    normChars cs =
      dropLeadWhile isPySpace (dropTrailWhile isPySpace (eolNorm cs)) := rfl

/-- Helper: all-whitespace padding around a content does not change its
checksum normalization. -/
theorem normChars_ws_pad (w1 m w2 : List Char)
    (hw1 : ∀ ch ∈ w1, isPySpace ch = true)
    (hw2 : ∀ ch ∈ w2, isPySpace ch = true) :
    normChars (w1 ++ m ++ w2) = normChars m := by
  rw [normChars_eq, normChars_eq]
  rw [stripTrail_eolNorm_ws (w1 ++ m) w2 hw2]
  rw [dropLead_dropTrail_comm isPySpace (eolNorm (w1 ++ m))]
  rw [stripLead_eolNorm_ws w1 hw1 m]
  rw [← dropLead_dropTrail_comm isPySpace (eolNorm m)]

/-- C2: the per-document checksum is invariant under line-ending style and
under leading/trailing whitespace of the whole content — two contents that
decompose into all-whitespace padding around cores with identical line
segments (`splitEOL`) get the same checksum — and the checksum is the
stated pipeline: replace `\r\n` with `\n`, replace lone `\r` with `\n`,
strip the whole content, encode UTF-8, hash with SHA-256, render as
`sha256:<hex>`. -/
theorem content_checksum_normalization_invariant
    (c c' : String) (w1 w2 w1' w2' m m' : List Char)
    (hc : c.data = w1 ++ m ++ w2) (hc' : c'.data = w1' ++ m' ++ w2')
    (hw1 : ∀ ch ∈ w1, isPySpace ch = true) (hw2 : ∀ ch ∈ w2, isPySpace ch = true)
    (hw1' : ∀ ch ∈ w1', isPySpace ch = true) (hw2' : ∀ ch ∈ w2', isPySpace ch = true)
    (hm : splitEOL m = splitEOL m') :
    content_checksum c = content_checksum c' ∧
    content_checksum c = "sha256:" ++ bytesToHex (sha256 (utf8Encode
      (pyStripChars (replaceCR (replaceCRLF c.data))))) := by
  refine ⟨?_, rfl⟩
  unfold content_checksum
  have h : normChars c.data = normChars c'.data := by
    rw [hc, hc', normChars_ws_pad w1 m w2 hw1 hw2,
      normChars_ws_pad w1' m' w2' hw1' hw2']
    rw [normChars_eq, normChars_eq, eolNorm_eq_of_splitEOL_eq hm]
  rw [h]

/-- C2 witness: a CRLF content with leading whitespace against the same
lines with LF and trailing whitespace. -/
theorem content_checksum_normalization_invariant_witness :
    splitEOL "a\r\nb".data = splitEOL "a\nb".data ∧
    (" a\r\nb" : String).data = [' '] ++ "a\r\nb".data ++ [] ∧
    ("a\nb  " : String).data = [] ++ "a\nb".data ++ [' ', ' '] ∧
    content_checksum " a\r\nb" = content_checksum "a\nb  " := by
  refine ⟨by decide, by decide, by decide, ?_⟩
  exact (content_checksum_normalization_invariant " a\r\nb" "a\nb  "
    [' '] [] [] [' ', ' '] "a\r\nb".data "a\nb".data
    (by decide) (by decide) (by decide) (by decide) (by decide) (by decide)
    (by decide)).1

/-- C3 witness: the resolution rule evaluated over the concrete index of
`exRootCritical`. -/
theorem validate_references_resolution_witness :
    ref_exists "t1" exIdxCritical =
      (exIdxCritical.any (fun e => e.1 = "t1") ||
        exIdxCritical.any (fun e => e.1 = "t1" ++ "-spec")) ∧
    (validate_references exIdxCritical = [] ↔
      ∀ kd ∈ exIdxCritical, ∀ r ∈ kd.2.references,
        ref_exists r exIdxCritical = true) :=
  ⟨(validate_references_resolution exIdxCritical).2.1 "t1",
   (validate_references_resolution exIdxCritical).2.2⟩

/-- C6 witness: the amended failure condition instantiated at a concrete
content with no frontmatter. -/
theorem parse_document_failure_condition_witness :
    ∃ e, parse_document yamlSimple ["rules", "bad.md"] "no frontmatter" = .error e :=
  (parse_document_failure_condition yamlSimple ["rules", "bad.md"] "no frontmatter").mpr
    (Or.inl (by decide))

end Aictx
